import Mathlib

/-!
Verification development for the svg2latex repository (files `svg2pdf.py` and
`svg2latex.py`).  The Python code is shallowly embedded: Python floats are
modelled as exact rationals (`ℚ`), Python exceptions as `Except String`,
mutation of objects as explicit state passing, and the lxml element tree as an
arena of nodes with parent back-references (document order = list order), the
representation the repository's own design notes recommend.  File-system and
process side effects (file copies, preamble file reads, external tools) are
outside the model; the values the code computes from them (paths) are recorded
instead.
-/

deriving instance DecidableEq for Except

/-! ## Python string primitives

Models of the Python `str` operations the two parsers use, over `List Char`.
`re` character class `\s` and `str.split()`/`str.strip()` whitespace are
modelled by the ASCII whitespace set (the inputs handled by the program are
ASCII attribute strings). -/

/-- The Python whitespace characters (ASCII fragment of `\s` / `str.strip`). -/
def isPyWs (c : Char) : Bool :=
  c = ' ' || c = '\t' || c = '\n' || c = '\r' || c = '\x0b' || c = '\x0c'

/-- The regex word class `\w` (ASCII fragment), used for the transform
function name. -/
def isWordChar (c : Char) : Bool :=
  c.isAlphanum || c = '_'

/-- Python `str.strip()`: drop whitespace from both ends. -/
def stripWs (s : List Char) : List Char :=
  ((s.dropWhile isPyWs).reverse.dropWhile isPyWs).reverse

/-- Helper for `splitWs`; `acc` is the current token reversed. -/
def splitWsAux : List Char → List Char → List (List Char)
  | [], acc => if acc = [] then [] else [acc.reverse]
  | c :: cs, acc =>
    if isPyWs c then
      if acc = [] then splitWsAux cs []
      else acc.reverse :: splitWsAux cs []
    else splitWsAux cs (c :: acc)

/-- Python `str.split()` with no argument: split on whitespace runs,
discarding empty strings. -/
def splitWs (s : List Char) : List (List Char) :=
  splitWsAux s []

/-- Helper for `splitComma`; `acc` is the current piece reversed. -/
def splitCommaAux : List Char → List Char → List (List Char)
  | [], acc => [acc.reverse]
  | c :: cs, acc =>
    if c = ',' then acc.reverse :: splitCommaAux cs []
    else splitCommaAux cs (c :: acc)

/-- Python `str.split(',')`: split on every comma, keeping empty pieces. -/
def splitComma (s : List Char) : List (List Char) :=
  splitCommaAux s []

/-- Python `str.replace(',', ' ')` as used in `svg_parse_transform`
(svg2pdf.py line 143). -/
def commaToSpace (c : Char) : Char :=
  if c = ',' then ' ' else c

/-! ## Numeric parsing

One numeric grammar serves both `float(str)` (on the restricted alphabet the
transform tokenizers can produce: digits, `.`, `e`, `E`, `+`, `-`) and the
`value` group of `RX_LENGTH` (svg2pdf.py lines 191-199); the two grammars
coincide there: optional sign, then `[0-9]+\.?[0-9]*` or `\.[0-9][0-9]*`,
then an optional complete exponent.  Values are exact rationals. -/

/-- Numeric value of a digit string. -/
def digitsToNat (ds : List Char) : Nat :=
  ds.foldl (fun a c => 10 * a + (c.toNat - 48)) 0

/-- The syntactic parts of a matched numeric token: sign, integer digits,
fraction digits, exponent sign and exponent digits (empty = no exponent). -/
structure NumToken where
  neg : Bool
  ip : List Char
  fp : List Char
  eneg : Bool
  ed : List Char
  deriving DecidableEq, Repr

/-- The exact value of a numeric token (what `float` computes on the matched
text). -/
def numTokenVal (t : NumToken) : ℚ :=
  let m : ℚ := (digitsToNat t.ip : ℚ) + (digitsToNat t.fp : ℚ) / (10 : ℚ) ^ t.fp.length
  let sm : ℚ := if t.neg then -m else m
  if t.ed.isEmpty then sm
  else sm * (10 : ℚ) ^ ((if t.eneg then (-1 : ℤ) else 1) * (digitsToNat t.ed : ℤ))

/-- Scan an optional exponent `([eE][+-]?[0-9]+)?` after a mantissa.  If the
exponent is incomplete the input is left untouched (the regex backtracks to
the empty optional group; `float` then fails on the leftover). -/
def scanExponent (neg : Bool) (ip fp : List Char) (s : List Char) : NumToken × List Char :=
  match s with
  | c :: rest =>
    if c = 'e' || c = 'E' then
      let (eneg, r1) : Bool × List Char :=
        match rest with
        | '+' :: r => (false, r)
        | '-' :: r => (true, r)
        | _ => (false, rest)
      let ds := r1.takeWhile Char.isDigit
      if ds = [] then (⟨neg, ip, fp, false, []⟩, s)
      else (⟨neg, ip, fp, eneg, ds⟩, r1.drop ds.length)
    else (⟨neg, ip, fp, false, []⟩, s)
  | [] => (⟨neg, ip, fp, false, []⟩, [])

/-- Scan a signed decimal number with optional exponent from the front of
`s`, returning its syntactic parts and the unconsumed suffix; `none` if no
number starts at the front. -/
def scanNumber (s : List Char) : Option (NumToken × List Char) :=
  let (neg, s1) : Bool × List Char :=
    match s with
    | '+' :: r => (false, r)
    | '-' :: r => (true, r)
    | _ => (false, s)
  match s1 with
  | c :: _ =>
    if c.isDigit then
      let ip := s1.takeWhile Char.isDigit
      let r2 := s1.dropWhile Char.isDigit
      let (fp, r3) : List Char × List Char :=
        match r2 with
        | '.' :: r => (r.takeWhile Char.isDigit, r.dropWhile Char.isDigit)
        | _ => ([], r2)
      some (scanExponent neg ip fp r3)
    else if c = '.' then
      match s1 with
      | _ :: d :: r =>
        if d.isDigit then
          some (scanExponent neg [] (d :: r.takeWhile Char.isDigit) (r.dropWhile Char.isDigit))
        else none
      | _ => none
    else none
  | [] => none

/-- Parse a signed decimal number with optional exponent from the front of
`s`, returning its exact value and the unconsumed suffix. -/
def parseNumber (s : List Char) : Option (ℚ × List Char) :=
  (scanNumber s).map (fun p => (numTokenVal p.1, p.2))

/-- Python `float(str)` on a whitespace-free token: the number must consume
the whole token. -/
def pyFloatCore (s : List Char) : Option ℚ :=
  match parseNumber s with
  | some (v, []) => some v
  | _ => none

/-- Python `float(str)` on an arbitrary string (leading/trailing whitespace
is ignored); failure models `ValueError`. -/
def pyFloatStr (s : String) : Except String ℚ :=
  match pyFloatCore (stripWs s.toList) with
  | some v => .ok v
  | none => .error ("ValueError: could not convert string to float: " ++ s)

/-! ## AffineTransform (svg2pdf.py lines 60-134, svg2latex.py lines 13-78)

The two files contain the same class up to one method: `scale`
(svg2pdf.py line 84 vs svg2latex.py line 37).  `m` is the tuple
`(ma, mb, mc, md)` and `t` the tuple `(me, mf)` of the source; mutation is
modelled by returning the updated value.  `rotate_degrees` involves real
trigonometry and is used by no claim, so it is not embedded. -/

structure AffineTransform where
  t : ℚ × ℚ
  m : ℚ × ℚ × ℚ × ℚ
  deriving DecidableEq, Repr

/-- `AffineTransform.__init__` with default arguments (the identity). -/
def AffineTransform.identity : AffineTransform :=
  { t := (0, 0), m := (1, 0, 0, 1) }

/-- `AffineTransform.matrix(a,b,c,d,e,f)` (svg2pdf.py lines 89-100):
right-multiplies the receiver by the given matrix. -/
def AffineTransform.matrix (s : AffineTransform) (a b c d e f : ℚ) : AffineTransform :=
  let (sa, sb, sc, sd) := s.m
  let (se, sf) := s.t
  { m := (sa*a + sc*b, sb*a + sd*b, sa*c + sc*d, sb*c + sd*d),
    t := (sa*e + sc*f + se, sb*e + sd*f + sf) }

/-- `AffineTransform.translate(tx,ty)` (svg2pdf.py line 71). -/
def AffineTransform.translate (s : AffineTransform) (tx ty : ℚ) : AffineTransform :=
  s.matrix 1 0 0 1 tx ty

/-- `AffineTransform.scale(sx,sy)` of svg2pdf.py line 84 (the `sy=None`
default is resolved by the caller); `e,f` default to `0.0`. -/
def AffineTransform.scale (s : AffineTransform) (sx sy : ℚ) : AffineTransform :=
  s.matrix sx 0 0 sy 0 0

/-- `AffineTransform.scale(sx,sy)` of svg2latex.py line 37, which passes
`(sx,0.0, sy,0.0)` as `(a,b,c,d)`. -/
def AffineTransform.scaleLatex (s : AffineTransform) (sx sy : ℚ) : AffineTransform :=
  s.matrix sx 0 sy 0 0 0

/-- `AffineTransform.applyTo(x, y)` (svg2pdf.py lines 102-107). -/
def AffineTransform.applyTo (s : AffineTransform) (x y : ℚ) : ℚ × ℚ :=
  let (m0, m1, m2, m3) := s.m
  let (t0, t1) := s.t
  (t0 + m0*x + m2*y, t1 + m1*x + m3*y)

/-- `AffineTransform.__mul__` (svg2pdf.py lines 112-125). -/
def AffineTransform.mul (A B : AffineTransform) : AffineTransform :=
  let (a11, a21, a12, a22) := A.m
  let (a13, a23) := A.t
  let (b11, b21, b12, b22) := B.m
  let (b13, b23) := B.t
  { t := (a11*b13 + a12*b23 + a13, a21*b13 + a22*b23 + a23),
    m := (a11*b11 + a12*b21, a21*b11 + a22*b21,
          a11*b12 + a12*b22, a21*b12 + a22*b22) }

instance : Mul AffineTransform := ⟨AffineTransform.mul⟩

theorem AffineTransform.mul_def (A B : AffineTransform) : A * B = A.mul B := rfl

/-! ## Transform parsing

`RX_TRANSFORM` is `^\s*(\w+)\(([...]*)\)\s*$` in both files; the files differ
in the inner character class (svg2pdf.py line 136: `[0-9,\s\.Ee+-]`,
svg2latex.py line 146: `[0-9,\s\.-]`) and in the tokenization of the argument
list.  Since the word class excludes `(`, and both inner classes exclude `)`,
the anchored regex is equivalent to the greedy matcher below. -/

/-- The inner character class of svg2pdf.py's `RX_TRANSFORM`. -/
def pdfArgCls (c : Char) : Bool :=
  c.isDigit || c = ',' || isPyWs c || c = '.' || c = 'E' || c = 'e' || c = '+' || c = '-'

/-- The inner character class of svg2latex.py's `RX_TRANSFORM`. -/
def latexArgCls (c : Char) : Bool :=
  c.isDigit || c = ',' || isPyWs c || c = '.' || c = '-'

/-- Matcher for `^\s*(\w+)\((cls*)\)\s*$`, returning the two groups. -/
def matchTransformRx (cls : Char → Bool) (s : List Char) : Option (List Char × List Char) :=
  let s1 := s.dropWhile isPyWs
  let func := s1.takeWhile isWordChar
  let r1 := s1.dropWhile isWordChar
  if func = [] then none
  else
    match r1 with
    | '(' :: r2 =>
      let inner := r2.takeWhile cls
      let r3 := r2.dropWhile cls
      match r3 with
      | ')' :: r4 => if r4.dropWhile isPyWs = [] then some (func, inner) else none
      | _ => none
    | _ => none

/-- `[float(x.strip()) for x in pieces]`: left-to-right conversion, first
failure raises `ValueError`. -/
def floatList : List (List Char) → Except String (List ℚ)
  | [] => .ok []
  | t :: ts =>
    match pyFloatCore (stripWs t) with
    | some v =>
      match floatList ts with
      | .ok vs => .ok (v :: vs)
      | .error e => .error e
    | none => .error ("ValueError: could not convert string to float: " ++ String.mk t)

namespace svg2pdf

/-- The dispatch on the function name in `svg_parse_transform`
(svg2pdf.py lines 144-163); `attrText` is the attribute string, used only in the error text. -/
def dispatchTransform (attrText : String) (func : List Char) (args : List ℚ) :
    Except String AffineTransform :=
  let xform := AffineTransform.identity
  if func = "matrix".toList then
    match args with
    | [a, b, c, d, e, f] => .ok (xform.matrix a b c d e f)
    | _ => .error "bad matrix transform"
  else if func = "translate".toList then
    match args with
    | [tx] => .ok (xform.translate tx 0)
    | [tx, ty] => .ok (xform.translate tx ty)
    | _ => .error "bad translate transform"
  else if func = "scale".toList then
    match args with
    | [sx] => .ok (xform.scale sx sx)
    | [sx, sy] => .ok (xform.scale sx sy)
    | _ => .error "bad scale transform"
  else .error ("unsupported transform attribute (" ++ attrText ++ ")")

/-- `svg_parse_transform` (svg2pdf.py lines 138-163): regex match, then
`m.group(2).replace(',',' ').split()` mapped through `float`, then dispatch. -/
def svg_parse_transform (attrText : String) : Except String AffineTransform :=
  match matchTransformRx pdfArgCls attrText.toList with
  | none => .error ("bad transform (" ++ attrText ++ ")")
  | some (func, inner) =>
    match floatList (splitWs (inner.map commaToSpace)) with
    | .error e => .error e
    | .ok args => dispatchTransform attrText func args

end svg2pdf

namespace svg2latex

/-- The dispatch in `parse_svg_transform` (svg2latex.py lines 154-173).  The
`scale` branch calls `xform.translate(sx,sy)` (line 170), exactly as in the
source. -/
def dispatchTransform (attrText : String) (func : List Char) (args : List ℚ) :
    Except String AffineTransform :=
  let xform := AffineTransform.identity
  if func = "matrix".toList then
    match args with
    | [a, b, c, d, e, f] => .ok (xform.matrix a b c d e f)
    | _ => .error "bad matrix transform"
  else if func = "translate".toList then
    match args with
    | [tx] => .ok (xform.translate tx 0)
    | [tx, ty] => .ok (xform.translate tx ty)
    | _ => .error "bad translate transform"
  else if func = "scale".toList then
    match args with
    | [sx] => .ok (xform.translate sx sx)
    | [sx, sy] => .ok (xform.translate sx sy)
    | _ => .error "bad scale transform"
  else .error ("unsupported transform attribute (" ++ attrText ++ ")")

/-- `parse_svg_transform` (svg2latex.py lines 148-173):
`[float(x.strip()) for x in m.group(2).split(',')]`, then dispatch. -/
def parse_svg_transform (attrText : String) : Except String AffineTransform :=
  match matchTransformRx latexArgCls attrText.toList with
  | none => .error ("bad transform (" ++ attrText ++ ")")
  | some (func, inner) =>
    match floatList (splitComma inner) with
    | .error e => .error e
    | .ok args => dispatchTransform attrText func args

end svg2latex

/-! ## Length parsing (svg2pdf.py lines 18-29 and 191-210)

`RX_LENGTH` is applied with `re.match` (anchored at the start only): leading
whitespace, the numeric value, an optional unit suffix; trailing text is
ignored.  The unit alternatives `em|ex|px|in|cm|mm|pt|pc|%` are matched
case-insensitively (`re.IGNORECASE`), and the captured text (original case)
is then looked up in `UNIT_SCALE_TO_USER_UNITS`, which only has keys
`'' px in cm mm pt pc` — so `em`, `ex`, `%` and mixed-case units raise
`KeyError`.  With `apply_unit=True` (the only call form in the repository)
the function returns the table entry when a unit matched — discarding
`raw_value` — and `raw_value` when no unit matched. -/

def INKSCAPE_DPI : ℚ := 90

/-- `UNIT_SCALE_TO_USER_UNITS` (svg2pdf.py lines 21-29). -/
def UNIT_SCALE_TO_USER_UNITS : List (String × ℚ) :=
  [("", 1), ("px", 1), ("in", INKSCAPE_DPI), ("cm", INKSCAPE_DPI / 2.54),
   ("mm", INKSCAPE_DPI / 25.4), ("pt", INKSCAPE_DPI / 72),
   ("pc", INKSCAPE_DPI * 12 / 72)]

/-- The two-character unit alternatives of `RX_LENGTH`, lowercase. -/
def lengthUnits2 : List String :=
  ["em", "ex", "px", "in", "cm", "mm", "pt", "pc"]

/-- Match the optional `(?P<unit> em|ex|px|in|cm|mm|pt|pc|[%])?` group
case-insensitively, returning the captured text in its original case. -/
def parseUnit (s : List Char) : Option String :=
  match s with
  | c1 :: c2 :: _ =>
    if lengthUnits2.contains (String.mk [c1.toLower, c2.toLower]) then
      some (String.mk [c1, c2])
    else if c1 = '%' then some "%"
    else none
  | [c1] => if c1 = '%' then some "%" else none
  | [] => none

/-- `svg_parse_length(text)` with `apply_unit=True` (svg2pdf.py
lines 200-210), the only form the repository calls. -/
def svg_parse_length (text : String) : Except String ℚ :=
  match parseNumber (text.toList.dropWhile isPyWs) with
  | none => .error ("invalid length \"" ++ text ++ "\"")
  | some (raw_value, rest) =>
    match parseUnit rest with
    | some unit =>
      match UNIT_SCALE_TO_USER_UNITS.lookup unit with
      | some scale => .ok scale
      | none => .error ("KeyError: " ++ unit)
    | none => .ok raw_value

namespace svg2latex

/-- The page-dimension computation of `process_svg` (svg2latex.py
lines 209-212): `float(attrib) * 72 / 90` for width and height.  The rest of
`process_svg` builds labels and is not needed by any claim. -/
def process_svg_dims (widthAttr heightAttr : String) : Except String (ℚ × ℚ) :=
  match pyFloatStr widthAttr with
  | .error e => .error e
  | .ok w =>
    match pyFloatStr heightAttr with
    | .error e => .error e
    | .ok h => .ok (w * 72 / 90, h * 72 / 90)

end svg2latex

/-! ## The document tree (lxml) as an arena

A `DocNode` is an element: tag (namespace prefixes written literally, e.g.
attribute key `textext:text`), attribute list, and a parent back-reference
(an index that is smaller than the node's own index in every well-formed
document, since the arena lists nodes in document order).  Detaching a
subtree (`el.getparent().remove(el)`) is modelled by recording the detached
root's index in a `removed` list: an element is still in the working tree iff
no entry of `removed` is an ancestor-or-self, and the detached root's parent
link reads as `None` afterwards, exactly as in lxml. -/

structure Elem where
  tag : String
  attrs : List (String × String)
  deriving DecidableEq, Repr

structure DocNode where
  parent : Option Nat
  elem : Elem
  deriving DecidableEq, Repr

/-- The document arena, in document order; index 0 is the root element. -/
abbrev SvgDoc := List DocNode

/-- Well-formed document: every parent link points to an earlier node. -/
def WFDoc (nodes : SvgDoc) : Prop :=
  ∀ (i : Nat) (nd : DocNode), nodes[i]? = some nd → ∀ p, nd.parent = some p → p < i

/-- `el.attrib[k]`: `KeyError` when the attribute is missing. -/
def attribReq (attrs : List (String × String)) (k : String) : Except String String :=
  match attrs.lookup k with
  | some v => .ok v
  | none => .error ("KeyError: " ++ k)

/-- `el.getparent()` in the current working tree: `None` for a detached
subtree root, the stored back-reference otherwise. -/
def parentLink (nodes : SvgDoc) (removed : List Nat) (i : Nat) : Option Nat :=
  match nodes[i]? with
  | none => none
  | some nd => if removed.contains i then none else nd.parent

/-- Ancestor-or-self indices of node `i` along original parent links,
innermost first; the fuel (chain depth is bounded by the arena size in a
well-formed document) makes the walk total. -/
def chainIdsAux (nodes : SvgDoc) : Nat → Option Nat → List Nat
  | _, none => []
  | 0, some _ => []
  | fuel + 1, some k =>
    match nodes[k]? with
    | none => []
    | some nd => k :: chainIdsAux nodes fuel nd.parent

/-- Ancestor-or-self indices of node `i`, node first, root last. -/
def chainIds (nodes : SvgDoc) (i : Nat) : List Nat :=
  chainIdsAux nodes (nodes.length + 1) (some i)

/-- A node is in the working tree iff no recorded removal is among its
ancestors-or-self (models reachability from the document root in lxml). -/
def aliveB (nodes : SvgDoc) (removed : List Nat) (i : Nat) : Bool :=
  (chainIds nodes i).all (fun a => !(removed.contains a))

/-- `el.getparent().remove(el)`: fails (AttributeError on `None`) when the
element has no parent in the current tree; otherwise records the detachment. -/
def removeEl (nodes : SvgDoc) (removed : List Nat) (i : Nat) : Except String (List Nat) :=
  match parentLink nodes removed i with
  | none => .error "AttributeError: getparent() is None"
  | some _ => .ok (i :: removed)

/-- `svg_find_accumulated_transform(el)` (svg2pdf.py lines 182-189;
`compute_svg_transform` of svg2latex.py lines 183-190 is identical up to
which transform parser it calls, and the claims use the svg2pdf one):
starting from the identity, while the element is not `None`, left-multiply
the parsed `transform` attribute (if present) onto the accumulator and move
to the parent in the current working tree. -/
def accumAux (nodes : SvgDoc) (removed : List Nat) :
    Nat → Option Nat → AffineTransform → Except String AffineTransform
  | _, none, xform => .ok xform
  | 0, some _, _ => .error "fuel exhausted (cyclic parent links)"
  | fuel + 1, some i, xform =>
    match nodes[i]? with
    | none => .error "invalid node id"
    | some nd =>
      let next := parentLink nodes removed i
      match nd.elem.attrs.lookup "transform" with
      | some ts =>
        match svg2pdf.svg_parse_transform ts with
        | .ok tf => accumAux nodes removed fuel next (tf * xform)
        | .error e => .error e
      | none => accumAux nodes removed fuel next xform

/-- `svg_find_accumulated_transform(el)` on the working tree described by
`removed`. -/
def svg_find_accumulated_transform (nodes : SvgDoc) (removed : List Nat) (i : Nat) :
    Except String AffineTransform :=
  accumAux nodes removed (nodes.length + 1) (some i) AffineTransform.identity

/-! ## TeX picture assembly (svg2pdf.py lines 235-368)

`TeXPictureElement.texcode` is a literal markup string in the source, built
with `str.format`; formatting a Python float into decimal text is a
float-representation concern outside this model, so the element markup is
embedded as a small inductive carrying the interpolated values instead of the
formatted text.  `extra_preamble` is the joined contents of the collected
preamble files; file reading is outside the model, so the collected paths are
recorded (in first-encounter order; the source keeps them in a `set`). -/

inductive TexCode where
  /-- `'\\includegraphics[width={}in,height={}in]{{{}}}'.format(width/90.0, height/90.0, localpath)` -/
  | includegraphicsImg (widthIn heightIn : ℚ) (localpath : String)
  /-- `'\\put(0,0){{\\includegraphics{{{}}}}}'.format('graphic_only.pdf')` -/
  | includegraphicsBg (path : String)
  /-- `'\\makebox(0,0)[lt]{\\begin{varwidth}{20in}%\n' + textext + '%\n\\relax\\end{varwidth}}'` -/
  | makeboxVarwidth (textext : String)
  /-- the `''` a fresh `TeXPictureElement` starts with -/
  | empty
  deriving DecidableEq, Repr

/-- `TeXPictureElement` (svg2pdf.py lines 252-255) together with the
`xform`/`svg_pos` attributes the extractors attach dynamically. -/
structure TeXPictureElement where
  tex_pos : ℚ × ℚ
  texcode : TexCode
  xform : AffineTransform
  svg_pos : ℚ × ℚ
  deriving DecidableEq, Repr

/-- `TeXPicture` (svg2pdf.py lines 235-240); `extra_preamble` records the
preamble file paths (see the section comment). -/
structure TeXPicture where
  width : ℚ
  height : ℚ
  nodes : List TeXPictureElement
  extra_preamble : List String
  deriving DecidableEq, Repr

/-- Octal digit test for escape decoding. -/
def isOctDigit (c : Char) : Bool :=
  '0' ≤ c && c ≤ '7'

/-- Hex digit test (this toolchain's `Char` has no such predicate). -/
def isHexDigitB (c : Char) : Bool :=
  c.isDigit || ('a' ≤ c && c ≤ 'f') || ('A' ≤ c && c ≤ 'F')

/-- Value of a hex digit. -/
def hexVal (h : Char) : Nat :=
  if h.isDigit then h.toNat - 48
  else if 'a' ≤ h && h ≤ 'f' then h.toNat - 87
  else h.toNat - 55

/-- Byte value of an octal escape digit string (mod 256, byte semantics). -/
def octChar (ds : List Char) : Char :=
  Char.ofNat (ds.foldl (fun a d => 8 * a + (d.toNat - 48)) 0 % 256)

/-- The single-character escapes of `codecs.escape_decode`. -/
def escChar (c : Char) : Option Char :=
  if c = '\\' then some '\\'
  else if c = '\'' then some '\''
  else if c = '"' then some '"'
  else if c = 'a' then some (Char.ofNat 7)
  else if c = 'b' then some (Char.ofNat 8)
  else if c = 'f' then some (Char.ofNat 12)
  else if c = 'n' then some '\n'
  else if c = 'r' then some '\r'
  else if c = 't' then some '\t'
  else if c = 'v' then some (Char.ofNat 11)
  else none

/-- `codecs.escape_decode` (used by `decode_escaped_string`, svg2pdf.py
line 269), modelled at character level for the standard backslash escapes;
unknown escapes keep the backslash, a trailing backslash is a `ValueError`,
octal values are taken mod 256 (byte semantics).  The fuel argument (at
least one unit per input character suffices) only makes the recursion
structural. -/
def escDecodeAux : Nat → List Char → Except String (List Char)
  | 0, _ => .error "fuel exhausted"
  | _ + 1, [] => .ok []
  | _ + 1, ['\\'] => .error "ValueError: Trailing \\ in string"
  | fuel + 1, '\\' :: c :: r =>
    if c = '\n' then escDecodeAux fuel r
    else
      match escChar c with
      | some ch =>
        match escDecodeAux fuel r with
        | .ok l => .ok (ch :: l)
        | .error e => .error e
      | none =>
        if isOctDigit c then
          match r with
          | c2 :: r2 =>
            if isOctDigit c2 then
              match r2 with
              | c3 :: r3 =>
                if isOctDigit c3 then
                  match escDecodeAux fuel r3 with
                  | .ok l => .ok (octChar [c, c2, c3] :: l)
                  | .error e => .error e
                else
                  match escDecodeAux fuel r2 with
                  | .ok l => .ok (octChar [c, c2] :: l)
                  | .error e => .error e
              | [] => .ok [octChar [c, c2]]
            else
              match escDecodeAux fuel r with
              | .ok l => .ok (octChar [c] :: l)
              | .error e => .error e
          | [] => .ok [octChar [c]]
        else if c = 'x' then
          match r with
          | h1 :: h2 :: r2 =>
            if isHexDigitB h1 && isHexDigitB h2 then
              match escDecodeAux fuel r2 with
              | .ok l => .ok (Char.ofNat (16 * hexVal h1 + hexVal h2) :: l)
              | .error e => .error e
            else .error "ValueError: invalid \\x escape"
          | _ => .error "ValueError: invalid \\x escape"
        else
          match escDecodeAux fuel r with
          | .ok l => .ok ('\\' :: c :: l)
          | .error e => .error e
  | fuel + 1, c :: rest =>
    match escDecodeAux fuel rest with
    | .ok l => .ok (c :: l)
    | .error e => .error e

/-- `decode_escaped_string(text)` (svg2pdf.py lines 269-270). -/
def decode_escaped_string (text : String) : Except String String :=
  match escDecodeAux (text.toList.length + 1) text.toList with
  | .ok l => .ok (String.mk l)
  | .error e => .error e

/-- `os.path.splitext(path)[1]`: the extension of the last path component
(leading dots of the component do not start an extension). -/
def splitextExt (p : String) : String :=
  let base := p.toList.foldl (fun acc c => if c = '/' then [] else acc ++ [c]) []
  let rest := base.drop (base.takeWhile (· = '.')).length
  if rest.contains '.' then
    String.mk ('.' :: (rest.reverse.takeWhile (· ≠ '.')).reverse)
  else ""

/-- Indices of the whole document, in document order. -/
def docIds (nodes : SvgDoc) : List Nat :=
  List.range nodes.length

/-- An xpath search such as `//svg:image` on the working tree: the elements
matching `p` that are still attached, in document order. -/
def candidateIds (nodes : SvgDoc) (removed : List Nat) (p : Elem → Bool) : List Nat :=
  (docIds nodes).filter (fun i =>
    aliveB nodes removed i &&
      (match nodes[i]? with
       | some nd => p nd.elem
       | none => false))

/-- `//svg:image` element test. -/
def isImageB (e : Elem) : Bool := e.tag = "image"

/-- `//svg:text` element test. -/
def isTextTagB (e : Elem) : Bool := e.tag = "text"

/-- `//*[@textext:text]` element test. -/
def hasTextextB (e : Elem) : Bool := (e.attrs.lookup "textext:text").isSome

/-- Look up a node id that an xpath search produced. -/
def getNode (nodes : SvgDoc) (i : Nat) : Except String DocNode :=
  match nodes[i]? with
  | some nd => .ok nd
  | none => .error "invalid node id"

/-- The body of the `//svg:image` loop in `extract_images_to_texpic`
(svg2pdf.py lines 274-295) up to the removal: parses `width` and `height`
(required), the accumulated transform, `x`/`y` (defaulting to `'0'`), reads
`xlink:href`, and builds the positioned element.  The `shutil.copy` call is a
file-system effect outside the model; the generated local name it copies to
is kept in the markup.  `image_id` is initialized to 1 and never incremented
in the source. -/
def extract_image_node (nodes : SvgDoc) (removed : List Nat) (picHeight : ℚ)
    (image_id : Nat) (i : Nat) : Except String TeXPictureElement :=
  match getNode nodes i with
  | .error e => .error e
  | .ok nd =>
    let a := nd.elem.attrs
    match attribReq a "width" with
    | .error e => .error e
    | .ok wS =>
      match svg_parse_length wS with
      | .error e => .error e
      | .ok width =>
        match attribReq a "height" with
        | .error e => .error e
        | .ok hS =>
          match svg_parse_length hS with
          | .error e => .error e
          | .ok height =>
            match svg_find_accumulated_transform nodes removed i with
            | .error e => .error e
            | .ok xform =>
              match svg_parse_length ((a.lookup "x").getD "0") with
              | .error e => .error e
              | .ok x =>
                match svg_parse_length ((a.lookup "y").getD "0") with
                | .error e => .error e
                | .ok y =>
                  match attribReq a "xlink:href" with
                  | .error e => .error e
                  | .ok path =>
                    let localpath := "image" ++ toString image_id ++ splitextExt path
                    let p := xform.applyTo x y
                    .ok { tex_pos := (p.1, picHeight - p.2 - height),
                          texcode := .includegraphicsImg (width / 90) (height / 90) localpath,
                          xform := xform,
                          svg_pos := (x, y) }

/-- The `//svg:image` loop of `extract_images_to_texpic`: build each
element, append it, and unlink the node. -/
def extract_images_go (nodes : SvgDoc) (image_id : Nat) :
    List Nat → TeXPicture → List Nat → Except String (TeXPicture × List Nat)
  | [], pic, removed => .ok (pic, removed)
  | i :: rest, pic, removed =>
    match extract_image_node nodes removed pic.height image_id i with
    | .error e => .error e
    | .ok el =>
      match removeEl nodes removed i with
      | .error e => .error e
      | .ok removed1 =>
        extract_images_go nodes image_id rest
          { pic with nodes := pic.nodes ++ [el] } removed1

/-- `extract_images_to_texpic(svgroot, pic, svg_dir)` (svg2pdf.py
lines 272-296). -/
def extract_images_to_texpic (nodes : SvgDoc) (pic : TeXPicture) (removed : List Nat) :
    Except String (TeXPicture × List Nat) :=
  extract_images_go nodes 1 (candidateIds nodes removed isImageB) pic removed

/-- The body of the `//svg:text` loop of `extract_text_to_texpic`
(svg2pdf.py lines 306-317): the element is built (its position is computed
and any parse failure raises) but — the `texcode` conversion being commented
out in the source — it is never appended; `texcode` stays `''`. -/
def extract_textnode (nodes : SvgDoc) (removed : List Nat) (picHeight : ℚ) (i : Nat) :
    Except String TeXPictureElement :=
  match getNode nodes i with
  | .error e => .error e
  | .ok nd =>
    let a := nd.elem.attrs
    match svg_find_accumulated_transform nodes removed i with
    | .error e => .error e
    | .ok xform =>
      match svg_parse_length ((a.lookup "x").getD "0") with
      | .error e => .error e
      | .ok x =>
        match svg_parse_length ((a.lookup "y").getD "0") with
        | .error e => .error e
        | .ok y =>
          let p := xform.applyTo x y
          .ok { tex_pos := (p.1, picHeight - p.2),
                texcode := .empty,
                xform := xform,
                svg_pos := (x, y) }

/-- The `//svg:text` loop: each matched node is processed and unlinked, and
nothing is appended to the picture. -/
def extract_text_go (nodes : SvgDoc) (picHeight : ℚ) :
    List Nat → List Nat → Except String (List Nat)
  | [], removed => .ok removed
  | i :: rest, removed =>
    match extract_textnode nodes removed picHeight i with
    | .error e => .error e
    | .ok _ =>
      match removeEl nodes removed i with
      | .error e => .error e
      | .ok removed1 => extract_text_go nodes picHeight rest removed1

/-- The body of the `//*[@textext:text]` loop of `extract_text_to_texpic`
(svg2pdf.py lines 322-336): decode the two textext attributes, build the
`makebox` markup, take the translation component `xform.t` of the
accumulated transform, flip the y-axis against the page height; returns the
element and the decoded preamble path. -/
def extract_textext_node (nodes : SvgDoc) (removed : List Nat) (picHeight : ℚ) (i : Nat) :
    Except String (TeXPictureElement × String) :=
  match getNode nodes i with
  | .error e => .error e
  | .ok nd =>
    let a := nd.elem.attrs
    match attribReq a "textext:text" with
    | .error e => .error e
    | .ok tS =>
      match decode_escaped_string tS with
      | .error e => .error e
      | .ok textext =>
        match attribReq a "textext:preamble" with
        | .error e => .error e
        | .ok pS =>
          match decode_escaped_string pS with
          | .error e => .error e
          | .ok preamble_src =>
            match svg_find_accumulated_transform nodes removed i with
            | .error e => .error e
            | .ok xform =>
              .ok ({ tex_pos := (xform.t.1, picHeight - xform.t.2),
                     texcode := .makeboxVarwidth textext,
                     xform := xform,
                     svg_pos := (0, 0) }, preamble_src)

/-- `preamble_files.add(path)` (insertion-ordered model of the source's
`set`). -/
def addToSet (s : List String) (x : String) : List String :=
  if s.contains x then s else s ++ [x]

/-- The `//*[@textext:text]` loop: append each element, collect its preamble
path, unlink the node. -/
def extract_textext_go (nodes : SvgDoc) :
    List Nat → TeXPicture → List String → List Nat →
    Except String (TeXPicture × List String × List Nat)
  | [], pic, pfiles, removed => .ok (pic, pfiles, removed)
  | i :: rest, pic, pfiles, removed =>
    match extract_textext_node nodes removed pic.height i with
    | .error e => .error e
    | .ok (el, psrc) =>
      match removeEl nodes removed i with
      | .error e => .error e
      | .ok removed1 =>
        extract_textext_go nodes rest
          { pic with nodes := pic.nodes ++ [el] } (addToSet pfiles psrc) removed1

/-- `extract_text_to_texpic(svgroot, pic)` (svg2pdf.py lines 298-346): the
`//svg:text` pass, then the `//*[@textext:text]` pass, then the preamble
collection (file contents are outside the model; the paths are stored). -/
def extract_text_to_texpic (nodes : SvgDoc) (pic : TeXPicture) (removed : List Nat) :
    Except String (TeXPicture × List Nat) :=
  match extract_text_go nodes pic.height (candidateIds nodes removed isTextTagB) removed with
  | .error e => .error e
  | .ok removed1 =>
    match extract_textext_go nodes (candidateIds nodes removed1 hasTextextB) pic [] removed1 with
    | .error e => .error e
    | .ok (pic1, pfiles, removed2) =>
      .ok ({ pic1 with extra_preamble := pfiles }, removed2)

/-- `convert_svg_to_texpic(svgroot, svg_dir)` (svg2pdf.py lines 348-368):
page dimensions from the root's `width`/`height` attributes via
`svg_parse_length` (no 72/90 rescale — the emitted wrapper instead sets
`\unitlength` to `0.8bp`), then images, then the fixed background
placeholder, then text.  Returns the picture and the final removal set (the
pruned working tree). -/
def convert_svg_to_texpic (nodes : SvgDoc) : Except String (TeXPicture × List Nat) :=
  match getNode nodes 0 with
  | .error e => .error e
  | .ok root =>
    match attribReq root.elem.attrs "width" with
    | .error e => .error e
    | .ok wS =>
      match svg_parse_length wS with
      | .error e => .error e
      | .ok width =>
        match attribReq root.elem.attrs "height" with
        | .error e => .error e
        | .ok hS =>
          match svg_parse_length hS with
          | .error e => .error e
          | .ok height =>
            let texpic : TeXPicture :=
              { width := width, height := height, nodes := [], extra_preamble := [] }
            match extract_images_to_texpic nodes texpic [] with
            | .error e => .error e
            | .ok (pic1, removed1) =>
              let bgnode : TeXPictureElement :=
                { tex_pos := (0, 0),
                  texcode := .includegraphicsBg "graphic_only.pdf",
                  xform := AffineTransform.identity,
                  svg_pos := (0, 0) }
              let pic2 := { pic1 with nodes := pic1.nodes ++ [bgnode] }
              extract_text_to_texpic nodes pic2 removed1

/-! ## Algebraic facts about the transform embedding -/

theorem AffineTransform.identity_mul (A : AffineTransform) :
    AffineTransform.identity * A = A := by
  obtain ⟨⟨p, q⟩, ⟨a, b, c, d⟩⟩ := A
  simp only [mul_def, mul, identity, AffineTransform.mk.injEq, Prod.mk.injEq]
  and_intros <;> ring

theorem AffineTransform.mul_identity (A : AffineTransform) :
    A * AffineTransform.identity = A := by
  obtain ⟨⟨p, q⟩, ⟨a, b, c, d⟩⟩ := A
  simp only [mul_def, mul, identity, AffineTransform.mk.injEq, Prod.mk.injEq]
  and_intros <;> ring

theorem AffineTransform.mul_assoc' (A B C : AffineTransform) :
    A * B * C = A * (B * C) := by
  obtain ⟨⟨ap, aq⟩, ⟨aa, ab, ac, ad⟩⟩ := A
  obtain ⟨⟨bp, bq⟩, ⟨ba, bb, bc, bd⟩⟩ := B
  obtain ⟨⟨cp, cq⟩, ⟨ca, cb, cc, cd⟩⟩ := C
  simp only [mul_def, mul, AffineTransform.mk.injEq, Prod.mk.injEq]
  and_intros <;> ring

/-- Value of a plain unsigned integer token. -/
theorem numTokenVal_digits (ds : List Char) :
    numTokenVal ⟨false, ds, [], false, []⟩ = (digitsToNat ds : ℚ) := by
  simp [numTokenVal, digitsToNat]

/-! ## Claims -/

/-- C7: for all affine transforms A and B and every point (x, y),
`(A*B).applyTo (x, y) = A.applyTo (B.applyTo (x, y))` — composition with the
`*` operator applies B's map first and A's map second, translation parts
included. -/
theorem c7_mul_applyTo (A B : AffineTransform) (x y : ℚ) :
    (A * B).applyTo x y = A.applyTo (B.applyTo x y).1 (B.applyTo x y).2 := by
  obtain ⟨⟨ap, aq⟩, ⟨aa, ab, ac, ad⟩⟩ := A
  obtain ⟨⟨bp, bq⟩, ⟨ba, bb, bc, bd⟩⟩ := B
  simp only [AffineTransform.mul_def, AffineTransform.mul, AffineTransform.applyTo,
    Prod.mk.injEq]
  and_intros <;> ring

/-- C1: the claim states `svg_parse_length` (with `apply_unit=True`)
multiplies the parsed value by the per-unit scale, so that
`resolveLength(2.54,'cm') == 90.0`.  The code (svg2pdf.py line 206) returns
`UNIT_SCALE_TO_USER_UNITS[unit]` alone, discarding the parsed value:
`svg_parse_length("2.54cm")` evaluates to 90/2.54 ≈ 35.43, not 90.  (The
`resolveLength(1,'in') == 90.0` instance holds only because the value is 1.) -/
theorem c1_parse_length_drops_value :
    svg_parse_length "2.54cm" = .ok (INKSCAPE_DPI / 2.54) ∧
      (INKSCAPE_DPI / 2.54 : ℚ) ≠ 90 ∧
      svg_parse_length "1in" = .ok 90 := by
  refine ⟨rfl, by norm_num [INKSCAPE_DPI], rfl⟩

/-- C2: parsing `scale(2,3)` with svg2pdf.py's `svg_parse_transform` gives a
transform with multiplicative semantics, `apply(1,1) == (2,3)`; parsing the
same string with svg2latex.py's `parse_svg_transform` (whose `scale` branch
calls `translate`, line 170) gives `apply(1,1) == (3,4)`, contradicting the
claim for that file. -/
theorem c2_scale_transform :
    (svg2pdf.svg_parse_transform "scale(2,3)").map (fun T => T.applyTo 1 1) = .ok (2, 3) ∧
      (svg2latex.parse_svg_transform "scale(2,3)").map (fun T => T.applyTo 1 1) = .ok (3, 4) := by
  have h2 : numTokenVal ⟨false, ['2'], [], false, []⟩ = 2 := by
    rw [numTokenVal_digits]; norm_num [(by decide : digitsToNat ['2'] = 2)]
  have h3 : numTokenVal ⟨false, ['3'], [], false, []⟩ = 3 := by
    rw [numTokenVal_digits]; norm_num [(by decide : digitsToNat ['3'] = 3)]
  constructor
  · have h : svg2pdf.svg_parse_transform "scale(2,3)" =
        .ok (AffineTransform.identity.scale (numTokenVal ⟨false, ['2'], [], false, []⟩)
          (numTokenVal ⟨false, ['3'], [], false, []⟩)) := rfl
    rw [h, h2, h3]
    show Except.ok ((AffineTransform.identity.scale 2 3).applyTo 1 1) = _
    refine congrArg Except.ok ?_
    simp only [AffineTransform.identity, AffineTransform.scale, AffineTransform.matrix,
      AffineTransform.applyTo, Prod.mk.injEq]
    norm_num
  · have h : svg2latex.parse_svg_transform "scale(2,3)" =
        .ok (AffineTransform.identity.translate (numTokenVal ⟨false, ['2'], [], false, []⟩)
          (numTokenVal ⟨false, ['3'], [], false, []⟩)) := rfl
    rw [h, h2, h3]
    show Except.ok ((AffineTransform.identity.translate 2 3).applyTo 1 1) = _
    refine congrArg Except.ok ?_
    simp only [AffineTransform.identity, AffineTransform.translate, AffineTransform.matrix,
      AffineTransform.applyTo, Prod.mk.injEq]
    norm_num

/-! ## Page-dimension invariance of the extraction loops -/

theorem extract_images_go_dims (nodes : SvgDoc) (iid : Nat) :
    ∀ cand pic removed out, extract_images_go nodes iid cand pic removed = .ok out →
      out.1.width = pic.width ∧ out.1.height = pic.height := by
  intro cand
  induction cand with
  | nil =>
    intro pic removed out h
    simp only [extract_images_go] at h
    cases h
    exact ⟨rfl, rfl⟩
  | cons i rest ih =>
    intro pic removed out h
    simp only [extract_images_go] at h
    cases hb : extract_image_node nodes removed pic.height iid i with
    | error e => simp only [hb] at h; exact (Except.noConfusion h)
    | ok el =>
      simp only [hb] at h
      cases hr : removeEl nodes removed i with
      | error e => simp only [hr] at h; exact (Except.noConfusion h)
      | ok removed1 =>
        simp only [hr] at h
        simpa using ih _ _ _ h

theorem extract_textext_go_dims (nodes : SvgDoc) :
    ∀ cand pic pfiles removed out, extract_textext_go nodes cand pic pfiles removed = .ok out →
      out.1.width = pic.width ∧ out.1.height = pic.height := by
  intro cand
  induction cand with
  | nil =>
    intro pic pfiles removed out h
    simp only [extract_textext_go] at h
    cases h
    exact ⟨rfl, rfl⟩
  | cons i rest ih =>
    intro pic pfiles removed out h
    simp only [extract_textext_go] at h
    cases hb : extract_textext_node nodes removed pic.height i with
    | error e => simp only [hb] at h; exact (Except.noConfusion h)
    | ok elp =>
      simp only [hb] at h
      cases hr : removeEl nodes removed i with
      | error e => simp only [hr] at h; exact (Except.noConfusion h)
      | ok removed1 =>
        simp only [hr] at h
        simpa using ih _ _ _ _ h

theorem extract_text_to_texpic_dims (nodes : SvgDoc) (pic : TeXPicture) (removed : List Nat)
    (out : TeXPicture × List Nat) (h : extract_text_to_texpic nodes pic removed = .ok out) :
    out.1.width = pic.width ∧ out.1.height = pic.height := by
  simp only [extract_text_to_texpic] at h
  cases h1 : extract_text_go nodes pic.height (candidateIds nodes removed isTextTagB) removed with
  | error e => simp only [h1] at h; exact (Except.noConfusion h)
  | ok removed1 =>
    simp only [h1] at h
    cases h2 : extract_textext_go nodes (candidateIds nodes removed1 hasTextextB) pic [] removed1 with
    | error e => simp only [h2] at h; exact (Except.noConfusion h)
    | ok res =>
      obtain ⟨pic1, pfiles, removed2⟩ := res
      simp only [h2] at h
      cases h
      exact extract_textext_go_dims nodes _ _ _ _ _ h2

/-- A document consisting only of a root with declared size 100 × 50. -/
def docRootOnly : SvgDoc :=
  [⟨none, ⟨"svg", [("width", "100"), ("height", "50")]⟩⟩]

/-- C3 (as stated) is false for svg2pdf.py: converting a root with declared
width `100` yields a page of width 100 (the resolved user-unit value), not
100·72/90 = 80; the 72/90 ratio is applied via the `0.8bp` unit length of the
emitted wrapper, not in the Page. -/
theorem c3_counterexample :
    (convert_svg_to_texpic docRootOnly).toOption.map (fun p => p.1.width) =
      some (numTokenVal ⟨false, ['1', '0', '0'], [], false, []⟩) ∧
    numTokenVal ⟨false, ['1', '0', '0'], [], false, []⟩ = 100 ∧
    ¬((100 : ℚ) = 100 * 72 / 90) := by
  refine ⟨rfl, ?_, by norm_num⟩
  rw [numTokenVal_digits]
  norm_num [(by decide : digitsToNat ['1', '0', '0'] = 100)]

/-- C3 (amended): svg2latex.py's `process_svg` sets the page dimensions to
the declared width and height each multiplied by 72/90; svg2pdf.py's
`convert_svg_to_texpic` instead stores the `svg_parse_length`-resolved
user-unit values unscaled (the fixed 72/90 ratio is applied downstream by the
emitted wrapper's `\unitlength` of 0.8 bp). -/
theorem c3_page_units :
    (∀ wA hA w h, pyFloatStr wA = .ok w → pyFloatStr hA = .ok h →
       svg2latex.process_svg_dims wA hA = .ok (w * 72 / 90, h * 72 / 90)) ∧
    (∀ (nodes : SvgDoc) (pic : TeXPicture) (rem : List Nat) (root : DocNode)
       (wS hS : String) (w h : ℚ),
       convert_svg_to_texpic nodes = .ok (pic, rem) →
       nodes[0]? = some root →
       root.elem.attrs.lookup "width" = some wS → svg_parse_length wS = .ok w →
       root.elem.attrs.lookup "height" = some hS → svg_parse_length hS = .ok h →
       pic.width = w ∧ pic.height = h) := by
  constructor
  · intro wA hA w h h1 h2
    simp only [svg2latex.process_svg_dims, h1, h2]
  · intro nodes pic rem root wS hS w h hconv hroot hw hwp hh hhp
    simp only [convert_svg_to_texpic, getNode, hroot, attribReq, hw, hwp, hh, hhp] at hconv
    cases himg : extract_images_to_texpic nodes
        { width := w, height := h, nodes := [], extra_preamble := [] } [] with
    | error e => simp only [himg] at hconv; exact (Except.noConfusion hconv)
    | ok pr =>
      obtain ⟨pic1, rem1⟩ := pr
      simp only [himg] at hconv
      have hd1 : pic1.width = w ∧ pic1.height = h := by
        simpa using extract_images_go_dims nodes 1 _ _ _ _ himg
      have hd2 := extract_text_to_texpic_dims nodes _ rem1 (pic, rem) hconv
      simp only at hd2
      exact ⟨hd2.1.trans hd1.1, hd2.2.trans hd1.2⟩

/-- Witness for `c3_page_units` at concrete inputs. -/
theorem c3_page_units_witness :
    svg2latex.process_svg_dims "100" "50" =
      .ok (numTokenVal ⟨false, ['1', '0', '0'], [], false, []⟩ * 72 / 90,
           numTokenVal ⟨false, ['5', '0'], [], false, []⟩ * 72 / 90) ∧
    ({ width := numTokenVal ⟨false, ['1', '0', '0'], [], false, []⟩,
       height := numTokenVal ⟨false, ['5', '0'], [], false, []⟩,
       nodes := [{ tex_pos := (0, 0), texcode := .includegraphicsBg "graphic_only.pdf",
                   xform := AffineTransform.identity, svg_pos := (0, 0) }],
       extra_preamble := [] } : TeXPicture).width =
      numTokenVal ⟨false, ['1', '0', '0'], [], false, []⟩ :=
  ⟨c3_page_units.1 "100" "50" _ _ rfl rfl,
   (c3_page_units.2 docRootOnly _ [] _ "100" "50" _ _ rfl rfl rfl rfl rfl rfl).1⟩

/-! ## What the extraction removes -/

/-- A successful `removeEl` records exactly the removed element. -/
theorem removeEl_ok {nodes : SvgDoc} {removed : List Nat} {i : Nat} {r : List Nat}
    (h : removeEl nodes removed i = .ok r) : r = i :: removed := by
  simp only [removeEl] at h
  cases hp : parentLink nodes removed i with
  | none => simp only [hp] at h; exact (Except.noConfusion h)
  | some p => simp only [hp] at h; cases h; rfl

/-- Membership in an xpath candidate list implies the element test. -/
theorem candidateIds_matches (nodes : SvgDoc) (removed : List Nat) (p : Elem → Bool) :
    ∀ i ∈ candidateIds nodes removed p, ∃ nd, nodes[i]? = some nd ∧ p nd.elem = true := by
  intro i hi
  simp only [candidateIds] at hi
  have h2 := (List.mem_filter.mp hi).2
  have h3 := (Bool.and_eq_true _ _).mp h2
  cases hnd : nodes[i]? with
  | none => rw [hnd] at h3; exact absurd h3.2 (by simp)
  | some nd => rw [hnd] at h3; exact ⟨nd, rfl, h3.2⟩

/-- The image loop only ever removes its candidates. -/
theorem extract_images_go_removed (nodes : SvgDoc) (iid : Nat) :
    ∀ cand pic removed out, extract_images_go nodes iid cand pic removed = .ok out →
      ∀ r ∈ out.2, r ∈ removed ∨ r ∈ cand := by
  intro cand
  induction cand with
  | nil =>
    intro pic removed out h r hr
    simp only [extract_images_go] at h
    cases h
    exact .inl hr
  | cons i rest ih =>
    intro pic removed out h r hr
    simp only [extract_images_go] at h
    cases hb : extract_image_node nodes removed pic.height iid i with
    | error e => simp only [hb] at h; exact (Except.noConfusion h)
    | ok el =>
      simp only [hb] at h
      cases hrm : removeEl nodes removed i with
      | error e => simp only [hrm] at h; exact (Except.noConfusion h)
      | ok removed1 =>
        simp only [hrm] at h
        rcases ih _ _ _ h r hr with h1 | h1
        · rw [removeEl_ok hrm] at h1
          rcases List.mem_cons.mp h1 with h2 | h2
          · exact .inr (by simp [h2])
          · exact .inl h2
        · exact .inr (List.mem_cons_of_mem _ h1)

/-- The plain-text loop only ever removes its candidates. -/
theorem extract_text_go_removed (nodes : SvgDoc) (picHeight : ℚ) :
    ∀ cand removed out, extract_text_go nodes picHeight cand removed = .ok out →
      ∀ r ∈ out, r ∈ removed ∨ r ∈ cand := by
  intro cand
  induction cand with
  | nil =>
    intro removed out h r hr
    simp only [extract_text_go] at h
    cases h
    exact .inl hr
  | cons i rest ih =>
    intro removed out h r hr
    simp only [extract_text_go] at h
    cases hb : extract_textnode nodes removed picHeight i with
    | error e => simp only [hb] at h; exact (Except.noConfusion h)
    | ok el =>
      simp only [hb] at h
      cases hrm : removeEl nodes removed i with
      | error e => simp only [hrm] at h; exact (Except.noConfusion h)
      | ok removed1 =>
        simp only [hrm] at h
        rcases ih _ _ h r hr with h1 | h1
        · rw [removeEl_ok hrm] at h1
          rcases List.mem_cons.mp h1 with h2 | h2
          · exact .inr (by simp [h2])
          · exact .inl h2
        · exact .inr (List.mem_cons_of_mem _ h1)

/-- The textext loop only ever removes its candidates. -/
theorem extract_textext_go_removed (nodes : SvgDoc) :
    ∀ cand pic pfiles removed out, extract_textext_go nodes cand pic pfiles removed = .ok out →
      ∀ r ∈ out.2.2, r ∈ removed ∨ r ∈ cand := by
  intro cand
  induction cand with
  | nil =>
    intro pic pfiles removed out h r hr
    simp only [extract_textext_go] at h
    cases h
    exact .inl hr
  | cons i rest ih =>
    intro pic pfiles removed out h r hr
    simp only [extract_textext_go] at h
    cases hb : extract_textext_node nodes removed pic.height i with
    | error e => simp only [hb] at h; exact (Except.noConfusion h)
    | ok elp =>
      simp only [hb] at h
      cases hrm : removeEl nodes removed i with
      | error e => simp only [hrm] at h; exact (Except.noConfusion h)
      | ok removed1 =>
        simp only [hrm] at h
        rcases ih _ _ _ _ h r hr with h1 | h1
        · rw [removeEl_ok hrm] at h1
          rcases List.mem_cons.mp h1 with h2 | h2
          · exact .inr (by simp [h2])
          · exact .inl h2
        · exact .inr (List.mem_cons_of_mem _ h1)

/-- Does the element at index `a` belong to one of the three extracted
classes (image tag, text tag, textext attribute)? -/
def matchAnyB (nodes : SvgDoc) (a : Nat) : Bool :=
  match nodes[a]? with
  | some nd => isImageB nd.elem || isTextTagB nd.elem || hasTextextB nd.elem
  | none => false

/-- The text pass only removes text-tagged or textext-attributed elements
(beyond what was already removed). -/
theorem extract_text_to_texpic_removed (nodes : SvgDoc) (pic : TeXPicture)
    (removed : List Nat) (out : TeXPicture × List Nat)
    (h : extract_text_to_texpic nodes pic removed = .ok out) :
    ∀ r ∈ out.2, r ∈ removed ∨ matchAnyB nodes r = true := by
  intro r hr
  simp only [extract_text_to_texpic] at h
  cases h1 : extract_text_go nodes pic.height (candidateIds nodes removed isTextTagB) removed with
  | error e => simp only [h1] at h; exact (Except.noConfusion h)
  | ok removed1 =>
  simp only [h1] at h
  cases h2 : extract_textext_go nodes (candidateIds nodes removed1 hasTextextB) pic [] removed1 with
  | error e => simp only [h2] at h; exact (Except.noConfusion h)
  | ok res =>
  obtain ⟨pic1, pfiles, removed2⟩ := res
  simp only [h2] at h
  cases h
  rcases extract_textext_go_removed nodes _ _ _ _ _ h2 r hr with hc | hc
  · rcases extract_text_go_removed nodes _ _ _ _ h1 r hc with hd | hd
    · exact .inl hd
    · obtain ⟨nd, hnd, hp⟩ := candidateIds_matches nodes removed isTextTagB r hd
      exact .inr (by simp [matchAnyB, hnd, hp])
  · obtain ⟨nd, hnd, hp⟩ := candidateIds_matches nodes removed1 hasTextextB r hc
    exact .inr (by simp [matchAnyB, hnd, hp])

/-- The image pass only removes image elements (beyond what was already
removed). -/
theorem extract_images_to_texpic_removed (nodes : SvgDoc) (pic : TeXPicture)
    (removed : List Nat) (out : TeXPicture × List Nat)
    (h : extract_images_to_texpic nodes pic removed = .ok out) :
    ∀ r ∈ out.2, r ∈ removed ∨ matchAnyB nodes r = true := by
  intro r hr
  rcases extract_images_go_removed nodes 1 _ _ _ _ h r hr with hc | hc
  · exact .inl hc
  · obtain ⟨nd, hnd, hp⟩ := candidateIds_matches nodes removed isImageB r hc
    exact .inr (by simp [matchAnyB, hnd, hp])

/-- Everything the full conversion removes is an image, text, or textext
element. -/
theorem convert_removed_matches (nodes : SvgDoc) (pic : TeXPicture) (rem : List Nat)
    (hconv : convert_svg_to_texpic nodes = .ok (pic, rem)) :
    ∀ r ∈ rem, matchAnyB nodes r = true := by
  intro r hr
  simp only [convert_svg_to_texpic] at hconv
  cases h0 : getNode nodes 0 with
  | error e => simp only [h0] at hconv; exact (Except.noConfusion hconv)
  | ok root =>
  simp only [h0] at hconv
  cases h1 : attribReq root.elem.attrs "width" with
  | error e => simp only [h1] at hconv; exact (Except.noConfusion hconv)
  | ok wS =>
  simp only [h1] at hconv
  cases h2 : svg_parse_length wS with
  | error e => simp only [h2] at hconv; exact (Except.noConfusion hconv)
  | ok w =>
  simp only [h2] at hconv
  cases h3 : attribReq root.elem.attrs "height" with
  | error e => simp only [h3] at hconv; exact (Except.noConfusion hconv)
  | ok hS =>
  simp only [h3] at hconv
  cases h4 : svg_parse_length hS with
  | error e => simp only [h4] at hconv; exact (Except.noConfusion hconv)
  | ok hq =>
  simp only [h4] at hconv
  cases h5 : extract_images_to_texpic nodes
      { width := w, height := hq, nodes := [], extra_preamble := [] } [] with
  | error e => simp only [h5] at hconv; exact (Except.noConfusion hconv)
  | ok pr1 =>
  obtain ⟨pic1, rem1⟩ := pr1
  simp only [h5] at hconv
  rcases extract_text_to_texpic_removed nodes _ rem1 (pic, rem) hconv r hr with hc | hc
  · rcases extract_images_to_texpic_removed nodes _ [] (pic1, rem1) h5 r hc with hd | hd
    · cases hd
    · exact hd
  · exact hc

/-- A root whose only child is a plain `svg:text` element. -/
def docPlainText : SvgDoc :=
  [⟨none, ⟨"svg", [("width", "100"), ("height", "50")]⟩⟩,
   ⟨some 0, ⟨"text", [("x", "3"), ("y", "4")]⟩⟩]

/-- A root whose only child is a `rect` element (no extracted class). -/
def docRectOnly : SvgDoc :=
  [⟨none, ⟨"svg", [("width", "100"), ("height", "50")]⟩⟩,
   ⟨some 0, ⟨"rect", [("width", "7")]⟩⟩]

/-- C4 (as stated) is false: a plain `svg:text` element — an image node in
neither class of the claim — is unlinked from its parent by the full
extraction (svg2pdf.py line 317 removes every `//svg:text` node even though
the commented-out conversion emits nothing for it). -/
theorem c4_counterexample :
    (convert_svg_to_texpic docPlainText).toOption.map Prod.snd = some [1] ∧
    isImageB ⟨"text", [("x", "3"), ("y", "4")]⟩ = false ∧
    hasTextextB ⟨"text", [("x", "3"), ("y", "4")]⟩ = false ∧
    aliveB docPlainText [1] 1 = false := by
  refine ⟨?_, by decide, by decide, by decide⟩
  decide

/-- C4 (amended): after the full extraction, every node none of whose
ancestors-or-self is an image element, a text element, or a
textext-annotated element is still in the working tree. -/
theorem c4_nonextracted_nodes_stay (nodes : SvgDoc) (pic : TeXPicture) (rem : List Nat)
    (k : Nat) (hconv : convert_svg_to_texpic nodes = .ok (pic, rem))
    (hk : ∀ a ∈ chainIds nodes k, matchAnyB nodes a = false) :
    aliveB nodes rem k = true := by
  have hs := convert_removed_matches nodes pic rem hconv
  simp only [aliveB, List.all_eq_true]
  intro a ha
  by_contra hca
  have hc : rem.contains a = true := by revert hca; cases rem.contains a <;> simp
  have hmem : a ∈ rem := by
    have := List.contains_iff_exists_mem_beq.mp hc
    obtain ⟨b, hb, hab⟩ := this
    have : a = b := by simpa using hab
    exact this ▸ hb
  exact absurd (hs a hmem) (by simp [hk a ha])

/-- Witness for `c4_nonextracted_nodes_stay`: the `rect` child of
`docRectOnly` survives the conversion. -/
theorem c4_nonextracted_nodes_stay_witness :
    aliveB docRectOnly [] 1 = true :=
  c4_nonextracted_nodes_stay docRectOnly _ _ 1 rfl (by decide)

/-- C9: for a typesetting-annotation node whose attributes decode and whose
accumulated transform is `xf`, the emitted element's page position is exactly
`(xf.t.1, pageHeight - xf.t.2)` — only the translation component of the
accumulated transform, with the y-axis flipped against the page height,
independently of the linear part `xf.m` (the statement constrains `xf.m`
nowhere). -/
theorem c9_textext_position_translation_only (nodes : SvgDoc) (removed : List Nat)
    (picHeight : ℚ) (i : Nat) (nd : DocNode) (tS pS tx pr : String) (xf : AffineTransform)
    (hnd : nodes[i]? = some nd)
    (ht : nd.elem.attrs.lookup "textext:text" = some tS)
    (htd : decode_escaped_string tS = .ok tx)
    (hp : nd.elem.attrs.lookup "textext:preamble" = some pS)
    (hpd : decode_escaped_string pS = .ok pr)
    (hxf : svg_find_accumulated_transform nodes removed i = .ok xf) :
    extract_textext_node nodes removed picHeight i =
      .ok ({ tex_pos := (xf.t.1, picHeight - xf.t.2),
             texcode := .makeboxVarwidth tx,
             xform := xf,
             svg_pos := (0, 0) }, pr) := by
  simp only [extract_textext_node, getNode, hnd, attribReq, ht, htd, hp, hpd, hxf]

/-- Witness for `c9_textext_position_translation_only`: a node whose
accumulated transform is `matrix(0,1,-1,0,7,8)` — a rotation with
translation (7,8) — is positioned at (7, 50-8) regardless of the linear part. -/
theorem c9_witness :
    extract_textext_node
      [⟨none, ⟨"svg", []⟩⟩,
       ⟨some 0, ⟨"g", [("textext:text", "a"), ("textext:preamble", "p.tex"),
         ("transform", "matrix(0,1,-1,0,7,8)")]⟩⟩] [] 50 1 =
      .ok ({ tex_pos := (((AffineTransform.identity.matrix
                (numTokenVal ⟨false, ['0'], [], false, []⟩)
                (numTokenVal ⟨false, ['1'], [], false, []⟩)
                (numTokenVal ⟨true, ['1'], [], false, []⟩)
                (numTokenVal ⟨false, ['0'], [], false, []⟩)
                (numTokenVal ⟨false, ['7'], [], false, []⟩)
                (numTokenVal ⟨false, ['8'], [], false, []⟩)) *
              AffineTransform.identity).t.1,
              50 - ((AffineTransform.identity.matrix
                (numTokenVal ⟨false, ['0'], [], false, []⟩)
                (numTokenVal ⟨false, ['1'], [], false, []⟩)
                (numTokenVal ⟨true, ['1'], [], false, []⟩)
                (numTokenVal ⟨false, ['0'], [], false, []⟩)
                (numTokenVal ⟨false, ['7'], [], false, []⟩)
                (numTokenVal ⟨false, ['8'], [], false, []⟩)) *
              AffineTransform.identity).t.2),
             texcode := .makeboxVarwidth "a",
             xform := (AffineTransform.identity.matrix
                (numTokenVal ⟨false, ['0'], [], false, []⟩)
                (numTokenVal ⟨false, ['1'], [], false, []⟩)
                (numTokenVal ⟨true, ['1'], [], false, []⟩)
                (numTokenVal ⟨false, ['0'], [], false, []⟩)
                (numTokenVal ⟨false, ['7'], [], false, []⟩)
                (numTokenVal ⟨false, ['8'], [], false, []⟩)) * AffineTransform.identity,
             svg_pos := (0, 0) }, "p.tex") :=
  c9_textext_position_translation_only _ [] 50 1 _ "a" "p.tex" "a" "p.tex" _
    rfl rfl rfl rfl rfl rfl

/-- C10: in image extraction, a missing `x` or `y` attribute defaults to
`'0'` (position 0) and extraction succeeds, while a missing `width`
attribute raises a `KeyError` before anything else is computed as does a
missing `height` attribute right after the width is resolved — width and
height are required, position is not. -/
theorem c10_image_attribute_requirements (nodes : SvgDoc) (removed : List Nat)
    (picHeight : ℚ) (iid : Nat) :
    (∀ (i : Nat) (nd : DocNode) (wS hS href : String) (w h : ℚ) (xf : AffineTransform),
       nodes[i]? = some nd →
       nd.elem.attrs.lookup "width" = some wS → svg_parse_length wS = .ok w →
       nd.elem.attrs.lookup "height" = some hS → svg_parse_length hS = .ok h →
       nd.elem.attrs.lookup "x" = none →
       nd.elem.attrs.lookup "y" = none →
       nd.elem.attrs.lookup "xlink:href" = some href →
       svg_find_accumulated_transform nodes removed i = .ok xf →
       extract_image_node nodes removed picHeight iid i =
         .ok { tex_pos := ((xf.applyTo 0 0).1, picHeight - (xf.applyTo 0 0).2 - h),
               texcode := .includegraphicsImg (w / 90) (h / 90)
                 ("image" ++ toString iid ++ splitextExt href),
               xform := xf,
               svg_pos := (0, 0) }) ∧
    (∀ (i : Nat) (nd : DocNode),
       nodes[i]? = some nd →
       nd.elem.attrs.lookup "width" = none →
       extract_image_node nodes removed picHeight iid i = .error "KeyError: width") ∧
    (∀ (i : Nat) (nd : DocNode) (wS : String) (w : ℚ),
       nodes[i]? = some nd →
       nd.elem.attrs.lookup "width" = some wS → svg_parse_length wS = .ok w →
       nd.elem.attrs.lookup "height" = none →
       extract_image_node nodes removed picHeight iid i = .error "KeyError: height") := by
  refine ⟨?_, ?_, ?_⟩
  · intro i nd wS hS href w h xf hnd hw hwp hh hhp hx hy href2 hxf
    have h0 : svg_parse_length "0" = .ok 0 := by
      have : svg_parse_length "0" = .ok (numTokenVal ⟨false, ['0'], [], false, []⟩) := rfl
      rw [this, numTokenVal_digits]
      norm_num [(by decide : digitsToNat ['0'] = 0)]
    simp only [extract_image_node, getNode, hnd, attribReq, hw, hwp, hh, hhp, hx, hy,
      href2, hxf, Option.getD, h0]
  · intro i nd hnd hw
    simp only [extract_image_node, getNode, hnd, attribReq, hw]
    rfl
  · intro i nd wS w hnd hw hwp hh
    simp only [extract_image_node, getNode, hnd, attribReq, hw, hwp, hh]
    rfl

/-- Witness for `c10_image_attribute_requirements`: an image with width and
height but no position extracts at `applyTo(0,0)`; one without width fails
with `KeyError: width`; one with only a width fails with
`KeyError: height`. -/
theorem c10_witness :
    extract_image_node
      [⟨none, ⟨"svg", []⟩⟩,
       ⟨some 0, ⟨"image", [("width", "4"), ("height", "5"), ("xlink:href", "a.png")]⟩⟩]
      [] 50 1 1 =
      .ok { tex_pos := ((AffineTransform.identity.applyTo 0 0).1,
              50 - (AffineTransform.identity.applyTo 0 0).2 -
                numTokenVal ⟨false, ['5'], [], false, []⟩),
            texcode := .includegraphicsImg (numTokenVal ⟨false, ['4'], [], false, []⟩ / 90)
              (numTokenVal ⟨false, ['5'], [], false, []⟩ / 90) "image1.png",
            xform := AffineTransform.identity,
            svg_pos := (0, 0) } ∧
    extract_image_node
      [⟨none, ⟨"svg", []⟩⟩, ⟨some 0, ⟨"image", [("height", "5")]⟩⟩] [] 50 1 1 =
      .error "KeyError: width" ∧
    extract_image_node
      [⟨none, ⟨"svg", []⟩⟩, ⟨some 0, ⟨"image", [("width", "4")]⟩⟩] [] 50 1 1 =
      .error "KeyError: height" :=
  ⟨(c10_image_attribute_requirements _ [] 50 1).1 1 _ "4" "5" "a.png" _ _ _
      rfl rfl rfl rfl rfl rfl rfl rfl rfl,
   (c10_image_attribute_requirements _ [] 50 1).2.1 1 _ rfl rfl,
   (c10_image_attribute_requirements _ [] 50 1).2.2 1 _ "4" _ rfl rfl rfl rfl⟩

/-! ## The accumulated transform as the spec describes it (C8) -/

/-- The transform contributed by one node: its parsed `transform` attribute,
or the identity when the attribute is absent (an out-of-range index also
contributes identity; it never occurs on a real chain). -/
def nodeTransform (nodes : SvgDoc) (k : Nat) : Except String AffineTransform :=
  match nodes[k]? with
  | none => .ok AffineTransform.identity
  | some nd =>
    match nd.elem.attrs.lookup "transform" with
    | some ts => svg2pdf.svg_parse_transform ts
    | none => .ok AffineTransform.identity

/-- Parse the transforms contributed along a chain of node indices. -/
def chainTransforms (nodes : SvgDoc) : List Nat → Except String (List AffineTransform)
  | [] => .ok []
  | k :: rest =>
    match nodeTransform nodes k with
    | .error e => .error e
    | .ok t =>
      match chainTransforms nodes rest with
      | .error e => .error e
      | .ok ts => .ok (t :: ts)

/-- The spec's description of the accumulated transform: the contributions
listed node-to-root are composed so that the root-most transform is applied
outermost — the product taken over the chain in root-to-node order, starting
from the identity. -/
def specAccumulatedTransform (tfs : List AffineTransform) : AffineTransform :=
  tfs.reverse.foldl (fun acc t => acc * t) AffineTransform.identity

theorem chainTransforms_cons {nodes : SvgDoc} {k : Nat} {rest : List Nat}
    {tfs : List AffineTransform} (h : chainTransforms nodes (k :: rest) = .ok tfs) :
    ∃ t ts, nodeTransform nodes k = .ok t ∧ chainTransforms nodes rest = .ok ts ∧
      tfs = t :: ts := by
  simp only [chainTransforms] at h
  cases h1 : nodeTransform nodes k with
  | error e => simp only [h1] at h; exact (Except.noConfusion h)
  | ok t =>
    simp only [h1] at h
    cases h2 : chainTransforms nodes rest with
    | error e => simp only [h2] at h; exact (Except.noConfusion h)
    | ok ts =>
      simp only [h2] at h
      cases h
      exact ⟨t, ts, rfl, rfl, rfl⟩

theorem specAccumulatedTransform_cons (t : AffineTransform) (ts : List AffineTransform) :
    specAccumulatedTransform (t :: ts) = specAccumulatedTransform ts * t := by
  simp [specAccumulatedTransform, List.foldl_append]

/-- On the pristine tree the parent link is the stored back-reference. -/
theorem parentLink_nil (nodes : SvgDoc) (k : Nat) (nd : DocNode)
    (h : nodes[k]? = some nd) : parentLink nodes [] k = nd.parent := by
  simp [parentLink, h]

/-- One fuel step of the accumulation loop equals the spec-side product of
the remaining chain, folded onto the accumulator. -/
theorem accumAux_eq_spec (nodes : SvgDoc) (hwf : WFDoc nodes) :
    ∀ (fuel k : Nat), k < nodes.length → k < fuel →
      ∀ (acc : AffineTransform) (tfs : List AffineTransform),
      chainTransforms nodes (chainIdsAux nodes fuel (some k)) = .ok tfs →
      accumAux nodes [] fuel (some k) acc = .ok (specAccumulatedTransform tfs * acc) := by
  intro fuel
  induction fuel with
  | zero => intro k _ hfk; omega
  | succ f ih =>
    intro k hk _ acc tfs hc
    have hnd : nodes[k]? = some nodes[k] := List.getElem?_eq_getElem hk
    simp only [chainIdsAux, hnd] at hc
    obtain ⟨t, ts, hnt, hrest, rfl⟩ := chainTransforms_cons hc
    simp only [accumAux, hnd, parentLink_nil nodes k nodes[k] hnd]
    cases hl : nodes[k].elem.attrs.lookup "transform" with
    | some ts0 =>
      simp only [nodeTransform, hnd, hl] at hnt
      simp only [hl, hnt]
      cases hp : nodes[k].parent with
      | none =>
        rw [hp] at hrest
        simp only [chainIdsAux, chainTransforms] at hrest
        cases hrest
        cases f <;>
          simp [accumAux, specAccumulatedTransform_cons, specAccumulatedTransform,
            AffineTransform.identity_mul]
      | some p =>
        rw [hp] at hrest
        have hpk : p < k := hwf k nodes[k] hnd p hp
        rw [ih p (by omega) (by omega) (t * acc) ts hrest,
          specAccumulatedTransform_cons, AffineTransform.mul_assoc']
    | none =>
      simp only [nodeTransform, hnd, hl] at hnt
      cases hnt
      simp only [hl]
      cases hp : nodes[k].parent with
      | none =>
        rw [hp] at hrest
        simp only [chainIdsAux, chainTransforms] at hrest
        cases hrest
        cases f <;>
          simp [accumAux, specAccumulatedTransform_cons, specAccumulatedTransform,
            AffineTransform.identity_mul, AffineTransform.mul_identity]
      | some p =>
        rw [hp] at hrest
        have hpk : p < k := hwf k nodes[k] hnd p hp
        rw [ih p (by omega) (by omega) acc ts hrest,
          specAccumulatedTransform_cons, AffineTransform.mul_identity]

/-- Executable well-formedness check for a document arena. -/
def wfDocB (nodes : SvgDoc) : Bool :=
  (List.range nodes.length).all (fun i =>
    match nodes[i]? with
    | some nd =>
      match nd.parent with
      | some p => decide (p < i)
      | none => true
    | none => true)

theorem wfDocB_spec {nodes : SvgDoc} (h : wfDocB nodes = true) : WFDoc nodes := by
  intro i nd hnd p hp
  have hi : i < nodes.length := by
    by_contra hno
    rw [List.getElem?_eq_none (by omega)] at hnd
    exact (Option.noConfusion hnd)
  have hall := List.all_eq_true.mp h i (List.mem_range.mpr hi)
  simp only [hnd, hp] at hall
  exact of_decide_eq_true hall

/-- C8: for every node of a well-formed document whose ancestor chain's
transform attributes all parse, `svg_find_accumulated_transform` equals the
spec's description — start from the identity and compose the contributions
of the chain so that the root-most transform is outermost (nodes without the
attribute contributing identity). -/
theorem c8_accumulated_transform (nodes : SvgDoc) (i : Nat)
    (hwf : wfDocB nodes = true) (hi : i < nodes.length) (tfs : List AffineTransform)
    (hc : chainTransforms nodes (chainIds nodes i) = .ok tfs) :
    svg_find_accumulated_transform nodes [] i = .ok (specAccumulatedTransform tfs) := by
  have h := accumAux_eq_spec nodes (wfDocB_spec hwf) (nodes.length + 1) i hi (by omega)
    AffineTransform.identity tfs hc
  rw [svg_find_accumulated_transform, h, AffineTransform.mul_identity]

/-- A three-level chain for the C8 witness: root with a translate, a middle
group without transform, a leaf with a scale. -/
def docChain : SvgDoc :=
  [⟨none, ⟨"svg", [("transform", "translate(1,2)")]⟩⟩,
   ⟨some 0, ⟨"g", []⟩⟩,
   ⟨some 1, ⟨"g", [("transform", "scale(2)")]⟩⟩]

/-- Witness for `c8_accumulated_transform` on `docChain`'s leaf: the chain
contributes scale, identity, translate (node to root), and the accumulated
transform is the root-outermost product. -/
theorem c8_witness :
    svg_find_accumulated_transform docChain [] 2 =
      .ok (specAccumulatedTransform
        [AffineTransform.identity.scale (numTokenVal ⟨false, ['2'], [], false, []⟩)
           (numTokenVal ⟨false, ['2'], [], false, []⟩),
         AffineTransform.identity,
         AffineTransform.identity.translate (numTokenVal ⟨false, ['1'], [], false, []⟩)
           (numTokenVal ⟨false, ['2'], [], false, []⟩)]) :=
  c8_accumulated_transform docChain 2 (by decide) (by decide) _ rfl

/-- A node whose index was recorded as removed is no longer in the tree. -/
theorem aliveB_false_of_self_removed (nodes : SvgDoc) (removed : List Nat) (i : Nat)
    (nd : DocNode) (hnd : nodes[i]? = some nd) (hmem : i ∈ removed) :
    aliveB nodes removed i = false := by
  have hc : removed.contains i = true :=
    List.contains_iff_exists_mem_beq.mpr ⟨i, hmem, by simp⟩
  simp only [aliveB, chainIds, chainIdsAux, hnd]
  simp [List.all_cons, hc]
  exact fun h => absurd hmem h

/-- C5: full conversion of a tree whose only extractable content is one
attached image element and one attached typesetting-annotation element (with
well-formed attributes, neither inside the other, and no plain text
elements) prunes both nodes from the tree and produces exactly the element
list [image-element, background-placeholder, text-element], in that order,
with the background fixed at the page origin and the preamble path
recorded. -/
theorem c5_three_layer_extraction (nodes : SvgDoc) (root ndI ndJ : DocNode) (i j : Nat)
    (wS hS wSI hSI href tS pS tx psrc : String) (W H w h x y : ℚ)
    (xfI xfJ : AffineTransform)
    (hnd0 : nodes[0]? = some root)
    (hrw : root.elem.attrs.lookup "width" = some wS)
    (hrwp : svg_parse_length wS = .ok W)
    (hrh : root.elem.attrs.lookup "height" = some hS)
    (hrhp : svg_parse_length hS = .ok H)
    (hCimg : candidateIds nodes [] isImageB = [i])
    (hndI : nodes[i]? = some ndI)
    (hiw : ndI.elem.attrs.lookup "width" = some wSI)
    (hiwp : svg_parse_length wSI = .ok w)
    (hih : ndI.elem.attrs.lookup "height" = some hSI)
    (hihp : svg_parse_length hSI = .ok h)
    (hx : svg_parse_length ((ndI.elem.attrs.lookup "x").getD "0") = .ok x)
    (hy : svg_parse_length ((ndI.elem.attrs.lookup "y").getD "0") = .ok y)
    (hhref : ndI.elem.attrs.lookup "xlink:href" = some href)
    (hxfI : svg_find_accumulated_transform nodes [] i = .ok xfI)
    (hremI : removeEl nodes [] i = .ok [i])
    (hCtext : candidateIds nodes [i] isTextTagB = [])
    (hCtex : candidateIds nodes [i] hasTextextB = [j])
    (hndJ : nodes[j]? = some ndJ)
    (htS : ndJ.elem.attrs.lookup "textext:text" = some tS)
    (htd : decode_escaped_string tS = .ok tx)
    (hpS : ndJ.elem.attrs.lookup "textext:preamble" = some pS)
    (hpd : decode_escaped_string pS = .ok psrc)
    (hxfJ : svg_find_accumulated_transform nodes [i] j = .ok xfJ)
    (hremJ : removeEl nodes [i] j = .ok [j, i]) :
    convert_svg_to_texpic nodes = .ok
      ({ width := W, height := H,
         nodes := [
           { tex_pos := ((xfI.applyTo x y).1, H - (xfI.applyTo x y).2 - h),
             texcode := .includegraphicsImg (w / 90) (h / 90) ("image1" ++ splitextExt href),
             xform := xfI, svg_pos := (x, y) },
           { tex_pos := (0, 0), texcode := .includegraphicsBg "graphic_only.pdf",
             xform := AffineTransform.identity, svg_pos := (0, 0) },
           { tex_pos := (xfJ.t.1, H - xfJ.t.2), texcode := .makeboxVarwidth tx,
             xform := xfJ, svg_pos := (0, 0) }],
         extra_preamble := [psrc] }, [j, i]) ∧
    aliveB nodes [j, i] i = false ∧ aliveB nodes [j, i] j = false := by
  refine ⟨?_, aliveB_false_of_self_removed nodes _ i ndI hndI (by simp),
    aliveB_false_of_self_removed nodes _ j ndJ hndJ (by simp)⟩
  have himg : extract_image_node nodes [] H 1 i =
      .ok { tex_pos := ((xfI.applyTo x y).1, H - (xfI.applyTo x y).2 - h),
            texcode := .includegraphicsImg (w / 90) (h / 90) ("image1" ++ splitextExt href),
            xform := xfI, svg_pos := (x, y) } := by
    simp only [extract_image_node, getNode, hndI, attribReq, hiw, hiwp, hih, hihp,
      hxfI, hx, hy, hhref]
    rfl
  have htex : extract_textext_node nodes [i] H j =
      .ok ({ tex_pos := (xfJ.t.1, H - xfJ.t.2), texcode := .makeboxVarwidth tx,
             xform := xfJ, svg_pos := (0, 0) }, psrc) := by
    simp only [extract_textext_node, getNode, hndJ, attribReq, htS, htd, hpS, hpd, hxfJ]
  simp only [convert_svg_to_texpic, getNode, hnd0, attribReq, hrw, hrwp, hrh, hrhp,
    extract_images_to_texpic, hCimg, extract_images_go, himg, hremI,
    extract_text_to_texpic, hCtext, extract_text_go, hCtex, extract_textext_go,
    htex, hremJ, addToSet]
  rfl

/-- A digit-only numeric token. -/
def tok (ds : List Char) : NumToken := ⟨false, ds, [], false, []⟩

/-- The document of the C5 witness: a 100×50 root with one positioned image
child carrying a translate and one textext child carrying a rotation
matrix. -/
def d5 : SvgDoc :=
  [⟨none, ⟨"svg", [("width", "100"), ("height", "50")]⟩⟩,
   ⟨some 0, ⟨"image", [("width", "4"), ("height", "5"), ("x", "1"), ("y", "2"),
     ("xlink:href", "pics/pic.png"), ("transform", "translate(10,20)")]⟩⟩,
   ⟨some 0, ⟨"g", [("textext:text", "a"), ("textext:preamble", "p.tex"),
     ("transform", "matrix(0,1,-1,0,7,8)")]⟩⟩]

/-- Accumulated transform of the image node of `d5`. -/
def xfImg5 : AffineTransform :=
  AffineTransform.identity.translate (numTokenVal (tok ['1', '0']))
    (numTokenVal (tok ['2', '0'])) * AffineTransform.identity

/-- Accumulated transform of the textext node of `d5`. -/
def xfTex5 : AffineTransform :=
  AffineTransform.identity.matrix (numTokenVal (tok ['0'])) (numTokenVal (tok ['1']))
    (numTokenVal ⟨true, ['1'], [], false, []⟩) (numTokenVal (tok ['0']))
    (numTokenVal (tok ['7'])) (numTokenVal (tok ['8'])) * AffineTransform.identity

/-- Witness for `c5_three_layer_extraction` on `d5`. -/
theorem c5_witness :
    convert_svg_to_texpic d5 = .ok
      ({ width := numTokenVal (tok ['1', '0', '0']), height := numTokenVal (tok ['5', '0']),
         nodes := [
           { tex_pos := ((xfImg5.applyTo (numTokenVal (tok ['1'])) (numTokenVal (tok ['2']))).1,
               numTokenVal (tok ['5', '0']) -
                 (xfImg5.applyTo (numTokenVal (tok ['1'])) (numTokenVal (tok ['2']))).2 -
                 numTokenVal (tok ['5'])),
             texcode := .includegraphicsImg (numTokenVal (tok ['4']) / 90)
               (numTokenVal (tok ['5']) / 90) "image1.png",
             xform := xfImg5,
             svg_pos := (numTokenVal (tok ['1']), numTokenVal (tok ['2'])) },
           { tex_pos := (0, 0), texcode := .includegraphicsBg "graphic_only.pdf",
             xform := AffineTransform.identity, svg_pos := (0, 0) },
           { tex_pos := (xfTex5.t.1, numTokenVal (tok ['5', '0']) - xfTex5.t.2),
             texcode := .makeboxVarwidth "a", xform := xfTex5, svg_pos := (0, 0) }],
         extra_preamble := ["p.tex"] }, [2, 1]) ∧
    aliveB d5 [2, 1] 1 = false ∧ aliveB d5 [2, 1] 2 = false :=
  c5_three_layer_extraction d5 _ _ _ 1 2 _ _ _ _ _ _ _ _ _ _ _ _ _ _ _ _ _
    rfl rfl rfl rfl rfl (by decide) rfl rfl rfl rfl rfl rfl rfl rfl rfl rfl
    (by decide) (by decide) rfl rfl rfl rfl rfl rfl rfl

/-- The numeric-token alphabet of the transform grammar. -/
def numChar (c : Char) : Bool :=
  c.isDigit || c = '.' || c = 'e' || c = 'E' || c = '+' || c = '-'

/-- Separator characters: comma or whitespace. -/
def sepChar (c : Char) : Bool :=
  c = ',' || isPyWs c

/-- Arguments assembled as token, separator, token, separator, token, ... -/
def joinArgs : List Char → List (List Char × List Char) → List Char
  | t0, [] => t0
  | t0, (s, t) :: rest => t0 ++ s ++ joinArgs t rest

theorem takeWhile_append_not {p : Char → Bool} :
    ∀ (l : List Char) (x : Char) (r : List Char), (∀ c ∈ l, p c = true) → p x = false →
      (l ++ x :: r).takeWhile p = l := by
  intro l x r hl hx
  induction l with
  | nil => simp [List.takeWhile, hx]
  | cons c cs ih =>
    have hc : p c = true := hl c (by simp)
    simp only [List.cons_append, List.takeWhile_cons, hc, if_true]
    rw [ih (fun d hd => hl d (by simp [hd]))]

theorem dropWhile_append_not {p : Char → Bool} :
    ∀ (l : List Char) (x : Char) (r : List Char), (∀ c ∈ l, p c = true) → p x = false →
      (l ++ x :: r).dropWhile p = x :: r := by
  intro l x r hl hx
  induction l with
  | nil => simp [List.dropWhile, hx]
  | cons c cs ih =>
    have hc : p c = true := hl c (by simp)
    simp only [List.cons_append, List.dropWhile_cons, hc, if_true]
    exact ih (fun d hd => hl d (by simp [hd]))

theorem dropWhile_eq_self {p : Char → Bool} (l : List Char)
    (h : ∀ c ∈ l, p c = false) : l.dropWhile p = l := by
  cases l with
  | nil => rfl
  | cons c cs => simp [List.dropWhile_cons, h c (by simp)]

theorem stripWs_eq_self (l : List Char) (h : ∀ c ∈ l, isPyWs c = false) :
    stripWs l = l := by
  unfold stripWs
  rw [dropWhile_eq_self l h, dropWhile_eq_self _ (fun c hc => h c (List.mem_reverse.mp hc)),
    List.reverse_reverse]

theorem splitWsAux_nonws :
    ∀ (t rest acc : List Char), (∀ c ∈ t, isPyWs c = false) →
      splitWsAux (t ++ rest) acc = splitWsAux rest (t.reverse ++ acc) := by
  intro t
  induction t with
  | nil => intro rest acc _; simp
  | cons c cs ih =>
    intro rest acc h
    have hc : isPyWs c = false := h c (by simp)
    simp only [List.cons_append, splitWsAux, hc, Bool.false_eq_true, if_false,
      List.reverse_cons, List.append_assoc, List.singleton_append]
    exact ih rest (c :: acc) (fun d hd => h d (by simp [hd]))

theorem splitWsAux_allws :
    ∀ (w rest : List Char), (∀ c ∈ w, isPyWs c = true) →
      splitWsAux (w ++ rest) [] = splitWsAux rest [] := by
  intro w
  induction w with
  | nil => intro rest _; simp
  | cons c cs ih =>
    intro rest h
    have hc : isPyWs c = true := h c (by simp)
    simp only [List.cons_append, splitWsAux, hc, if_true]
    exact ih rest (fun d hd => h d (by simp [hd]))

theorem splitWsAux_ws_emit (w rest acc : List Char) (hne : acc ≠ [])
    (hw : ∀ c ∈ w, isPyWs c = true) (hwne : w ≠ []) :
    splitWsAux (w ++ rest) acc = acc.reverse :: splitWsAux rest [] := by
  cases w with
  | nil => exact absurd rfl hwne
  | cons c cs =>
    have hc : isPyWs c = true := hw c (by simp)
    simp only [List.cons_append, splitWsAux, hc, if_true, hne, if_false, List.append_eq]
    rw [splitWsAux_allws cs rest (fun d hd => hw d (by simp [hd]))]

theorem splitWs_joinArgs :
    ∀ (rest : List (List Char × List Char)) (t0 : List Char),
      (∀ c ∈ t0, isPyWs c = false) → t0 ≠ [] →
      (∀ p ∈ rest, (p.1 ≠ [] ∧ ∀ c ∈ p.1, isPyWs c = true) ∧
        ((∀ c ∈ p.2, isPyWs c = false) ∧ p.2 ≠ [])) →
      splitWs (joinArgs t0 rest) = t0 :: rest.map Prod.snd := by
  intro rest
  induction rest with
  | nil =>
    intro t0 h0 h0ne _
    have : splitWsAux (t0 ++ []) [] = splitWsAux [] t0.reverse := by
      simpa using splitWsAux_nonws t0 [] [] h0
    simp only [splitWs, joinArgs]
    rw [← List.append_nil t0, this]
    simp only [splitWsAux]
    rw [if_neg (by simpa using h0ne)]
    simp
  | cons p rest ih =>
    intro t0 h0 h0ne hrest
    obtain ⟨s, t⟩ := p
    have hs := (hrest (s, t) (by simp)).1
    have ht := (hrest (s, t) (by simp)).2
    simp only [splitWs, joinArgs, List.append_assoc]
    rw [splitWsAux_nonws t0 _ [] h0, List.append_nil]
    rw [splitWsAux_ws_emit s _ t0.reverse (by simpa using h0ne) hs.2 hs.1]
    simp only [List.reverse_reverse, List.map_cons]
    have := ih t ht.1 ht.2 (fun q hq => hrest q (by simp [hq]))
    simp only [splitWs] at this
    rw [this]

theorem numChar_not_ws {c : Char} (h : numChar c = true) : isPyWs c = false := by
  simp only [numChar, Bool.or_eq_true] at h
  rcases h with ((((h | h) | h) | h) | h) | h
  · cases hw : isPyWs c
    · rfl
    · simp only [isPyWs, Bool.or_eq_true, decide_eq_true_eq] at hw
      rcases hw with ((((hw | hw) | hw) | hw) | hw) | hw <;> subst hw <;> simp_all [Char.isDigit]
  all_goals simp only [decide_eq_true_eq] at h; subst h; rfl

theorem numChar_not_comma {c : Char} (h : numChar c = true) : (c = ',') = False := by
  simp only [numChar, Bool.or_eq_true] at h
  simp only [eq_iff_iff, iff_false]
  intro hc
  subst hc
  simp_all [Char.isDigit]

theorem numChar_pdfArgCls {c : Char} (h : numChar c = true) : pdfArgCls c = true := by
  simp only [numChar, Bool.or_eq_true] at h
  simp only [pdfArgCls, Bool.or_eq_true]
  tauto

theorem sepChar_pdfArgCls {c : Char} (h : sepChar c = true) : pdfArgCls c = true := by
  simp only [sepChar, Bool.or_eq_true] at h
  simp only [pdfArgCls, Bool.or_eq_true]
  tauto

theorem wordChar_not_ws {c : Char} (h : isWordChar c = true) : isPyWs c = false := by
  cases hw : isPyWs c
  · rfl
  · simp only [isPyWs, Bool.or_eq_true, decide_eq_true_eq] at hw
    rcases hw with ((((hw | hw) | hw) | hw) | hw) | hw <;> subst hw <;>
      simp_all [isWordChar, Char.isAlphanum, Char.isAlpha, Char.isUpper, Char.isLower,
        Char.isDigit]

/-- The anchored regex matcher on a well-shaped transform string recovers
the function name and the argument text. -/
theorem matchTransformRx_shape (func inner : List Char)
    (hfne : func ≠ []) (hf : ∀ c ∈ func, isWordChar c = true)
    (hi : ∀ c ∈ inner, pdfArgCls c = true) :
    matchTransformRx pdfArgCls (func ++ '(' :: (inner ++ [')'])) = some (func, inner) := by
  have hdrop : (func ++ '(' :: (inner ++ [')'])).dropWhile isPyWs =
      func ++ '(' :: (inner ++ [')']) := by
    cases func with
    | nil => exact absurd rfl hfne
    | cons c cs =>
      simp [List.dropWhile_cons, wordChar_not_ws (hf c (by simp))]
  have htake : (func ++ '(' :: (inner ++ [')'])).takeWhile isWordChar = func :=
    takeWhile_append_not func '(' _ hf (by decide)
  have hdropw : (func ++ '(' :: (inner ++ [')'])).dropWhile isWordChar =
      '(' :: (inner ++ [')']) :=
    dropWhile_append_not func '(' _ hf (by decide)
  have htake2 : (inner ++ [')']).takeWhile pdfArgCls = inner := by
    have := takeWhile_append_not inner ')' ([] : List Char) hi (by decide)
    simpa using this
  have hdrop2 : (inner ++ [')']).dropWhile pdfArgCls = [')'] := by
    have := dropWhile_append_not inner ')' ([] : List Char) hi (by decide)
    simpa using this
  simp only [matchTransformRx, hdrop, htake, hdropw, htake2, hdrop2, hfne, if_neg,
    List.dropWhile_nil]
  simp [hfne]

theorem map_commaToSpace_token (t : List Char) (h : ∀ c ∈ t, numChar c = true) :
    t.map commaToSpace = t := by
  rw [show t = t.map id by simp]
  rw [List.map_map]
  refine List.map_congr_left ?_
  intro c hc
  simp only [Function.comp, id, commaToSpace]
  rw [if_neg]
  intro he
  exact (numChar_not_comma (h c (by simpa using hc))).mp he

theorem map_commaToSpace_sep (s : List Char) (h : ∀ c ∈ s, sepChar c = true) :
    ∀ c ∈ s.map commaToSpace, isPyWs c = true := by
  intro c hc
  obtain ⟨d, hd, rfl⟩ := List.mem_map.mp hc
  have := h d hd
  simp only [sepChar, Bool.or_eq_true, decide_eq_true_eq] at this
  rcases this with h1 | h1
  · subst h1; rfl
  · have : d ≠ ',' := by
      intro he; subst he; simp [isPyWs] at h1
    simp [commaToSpace, this, h1]

theorem map_commaToSpace_joinArgs :
    ∀ (rest : List (List Char × List Char)) (t0 : List Char),
      (joinArgs t0 rest).map commaToSpace =
        joinArgs (t0.map commaToSpace)
          (rest.map (fun p => (p.1.map commaToSpace, p.2.map commaToSpace))) := by
  intro rest
  induction rest with
  | nil => intro t0; simp [joinArgs]
  | cons p rest ih =>
    intro t0
    obtain ⟨s, t⟩ := p
    simp only [joinArgs, List.map_append, List.map_cons, ih]

theorem floatList_values :
    ∀ (toks : List (List Char)) (vs : List ℚ),
      toks.map pyFloatCore = vs.map some →
      (∀ t ∈ toks, ∀ c ∈ t, isPyWs c = false) →
      floatList toks = .ok vs := by
  intro toks
  induction toks with
  | nil =>
    intro vs h _
    cases vs with
    | nil => rfl
    | cons v vs => simp at h
  | cons t ts ih =>
    intro vs h hws
    cases vs with
    | nil => simp at h
    | cons v vs =>
      simp only [List.map_cons, List.cons.injEq] at h
      simp only [floatList, stripWs_eq_self t (hws t (by simp)), h.1]
      rw [ih vs h.2 (fun u hu => hws u (by simp [hu]))]

/-- For the three recognized function names the dispatch result does not
depend on the attribute text (which only feeds the unknown-name error). -/
theorem dispatchTransform_attr_free (a b : String) (func : List Char) (args : List ℚ)
    (h : func = "matrix".toList ∨ func = "translate".toList ∨ func = "scale".toList) :
    svg2pdf.dispatchTransform a func args = svg2pdf.dispatchTransform b func args := by
  rcases h with h | h | h <;> subst h <;> rfl

theorem pyFloatCore_ne_nil {t : List Char} {v : ℚ} (h : pyFloatCore t = some v) :
    t ≠ [] := by
  intro he
  subst he
  exact Option.noConfusion ((rfl : pyFloatCore [] = none) ▸ h)

theorem joinArgs_mem :
    ∀ (rest : List (List Char × List Char)) (t0 : List Char) (c : Char),
      c ∈ joinArgs t0 rest → c ∈ t0 ∨ ∃ p ∈ rest, c ∈ p.1 ∨ c ∈ p.2 := by
  intro rest
  induction rest with
  | nil => intro t0 c hc; exact .inl hc
  | cons p rest ih =>
    intro t0 c hc
    obtain ⟨s, t⟩ := p
    simp only [joinArgs, List.append_assoc, List.mem_append] at hc
    rcases hc with hc | hc | hc
    · exact .inl hc
    · exact .inr ⟨(s, t), by simp, .inl hc⟩
    · rcases ih t c hc with hd | ⟨q, hq, hd⟩
      · exact .inr ⟨(s, t), by simp, .inr hd⟩
      · exact .inr ⟨q, by simp [hq], hd⟩

/-- C6 (amended, svg2pdf side): a transform call assembled from one of the
three function names and numeric tokens (optional sign, decimal point,
exponent) joined by arbitrary nonempty comma-or-whitespace separators parses
to the dispatch of the function on the token values — independent of the
separators. -/
theorem c6_pdf_separator_free (func t0 : List Char) (rest : List (List Char × List Char))
    (v0 : ℚ) (vs : List ℚ)
    (hknown : func = "matrix".toList ∨ func = "translate".toList ∨ func = "scale".toList)
    (ht0v : pyFloatCore t0 = some v0)
    (ht0c : ∀ c ∈ t0, numChar c = true)
    (hseps : ∀ p ∈ rest, p.1 ≠ [] ∧ ∀ c ∈ p.1, sepChar c = true)
    (htoks : rest.map (fun p => pyFloatCore p.2) = vs.map some)
    (htoksc : ∀ p ∈ rest, ∀ c ∈ p.2, numChar c = true) :
    svg2pdf.svg_parse_transform (String.mk (func ++ '(' :: (joinArgs t0 rest ++ [')']))) =
      svg2pdf.dispatchTransform "" func (v0 :: vs) := by
  have hfne : func ≠ [] := by rcases hknown with h | h | h <;> subst h <;> decide
  have hword : ∀ c ∈ func, isWordChar c = true := by
    rcases hknown with h | h | h <;> subst h <;> decide
  have htokv : ∀ p ∈ rest, ∃ v, pyFloatCore p.2 = some v := by
    intro p hp
    have := congrArg (fun l => l.get? (rest.indexOf p)) htoks
    -- simpler: from the pointwise map equality, (pyFloatCore p.2).isSome
    have hmem : pyFloatCore p.2 ∈ rest.map (fun q => pyFloatCore q.2) :=
      List.mem_map.mpr ⟨p, hp, rfl⟩
    rw [htoks] at hmem
    obtain ⟨v, _, hv⟩ := List.mem_map.mp hmem
    exact ⟨v, hv.symm⟩
  have hinner : ∀ c ∈ joinArgs t0 rest, pdfArgCls c = true := by
    intro c hc
    rcases joinArgs_mem rest t0 c hc with hd | ⟨p, hp, hd | hd⟩
    · exact numChar_pdfArgCls (ht0c c hd)
    · exact sepChar_pdfArgCls ((hseps p hp).2 c hd)
    · exact numChar_pdfArgCls (htoksc p hp c hd)
  have hmatch := matchTransformRx_shape func (joinArgs t0 rest) hfne hword hinner
  simp only [svg2pdf.svg_parse_transform]
  have hl : (String.mk (func ++ '(' :: (joinArgs t0 rest ++ [')']))).toList =
      func ++ '(' :: (joinArgs t0 rest ++ [')']) := rfl
  rw [hl, hmatch]
  -- tokenization
  have hmapped : (joinArgs t0 rest).map commaToSpace =
      joinArgs t0 (rest.map (fun p => (p.1.map commaToSpace, p.2))) := by
    rw [map_commaToSpace_joinArgs, map_commaToSpace_token t0 ht0c]
    congr 1
    refine List.map_congr_left ?_
    intro p hp
    rw [map_commaToSpace_token p.2 (htoksc p hp)]
  have hsplit : splitWs ((joinArgs t0 rest).map commaToSpace) = t0 :: rest.map Prod.snd := by
    rw [hmapped]
    have := splitWs_joinArgs (rest.map (fun p => (p.1.map commaToSpace, p.2))) t0
      (fun c hc => numChar_not_ws (ht0c c hc)) (pyFloatCore_ne_nil ht0v) ?_
    · rw [this, List.map_map]
      congr 1
    · intro q hq
      obtain ⟨p, hp, rfl⟩ := List.mem_map.mp hq
      refine ⟨⟨by simpa using (hseps p hp).1, map_commaToSpace_sep p.1 (hseps p hp).2⟩,
        fun c hc => numChar_not_ws (htoksc p hp c hc), ?_⟩
      obtain ⟨v, hv⟩ := htokv p hp
      exact pyFloatCore_ne_nil hv
  have hfl : floatList (t0 :: rest.map Prod.snd) = .ok (v0 :: vs) := by
    refine floatList_values _ _ ?_ ?_
    · simp only [List.map_cons, List.map_map, ht0v]
      refine congrArg (some v0 :: ·) ?_
      simpa [Function.comp] using htoks
    · intro t ht
      rcases List.mem_cons.mp ht with h | h
      · subst h; exact fun c hc => numChar_not_ws (ht0c c hc)
      · obtain ⟨p, hp, rfl⟩ := List.mem_map.mp h
        exact fun c hc => numChar_not_ws (htoksc p hp c hc)
  simp only [hsplit, hfl]
  exact dispatchTransform_attr_free _ "" func (v0 :: vs) hknown

/-- C6 (as stated) fails for svg2latex.py's parser: `translate(1,2)` parses,
but replacing the comma by a space — `translate(1 2)` — raises, because
`parse_svg_transform` splits the argument text on commas only
(svg2latex.py line 153). -/
theorem c6_counterexample :
    svg2latex.parse_svg_transform "translate(1,2)" =
      .ok (AffineTransform.identity.translate (numTokenVal (tok ['1']))
        (numTokenVal (tok ['2']))) ∧
    svg2latex.parse_svg_transform "translate(1 2)" =
      .error "ValueError: could not convert string to float: 1 2" :=
  ⟨rfl, rfl⟩

/-- Witness for `c6_pdf_separator_free`: `translate(1, 2)` — one comma, one
space — parses to the dispatch of `translate` on the two token values. -/
theorem c6_witness :
    svg2pdf.svg_parse_transform "translate(1, 2)" =
      svg2pdf.dispatchTransform "" "translate".toList
        [numTokenVal (tok ['1']), numTokenVal (tok ['2'])] :=
  c6_pdf_separator_free "translate".toList ['1'] [([',', ' '], ['2'])] _ _
    (.inr (.inl rfl)) rfl (by decide) (by decide) rfl (by decide)
